import Mathlib

/-!
# A shallow embedding of the xltable core (expression resolution, table layout,
worksheet composition and workbook lookup), with theorems checking the
natural-language specification against the code.

Python dictionaries are modelled as association lists preserving insertion
order; Python exceptions are modelled with `Except`; the mutable
`active_table` / `active_worksheet` fields of a workbook are modelled by
explicit state passing.  Machine floats do not occur on the modelled paths
(scalar values are ints, bools and strings); `operator.truediv`, which would
produce a Python float, is modelled as an unsupported operation.  Recursions
that the equation compiler would otherwise compile by well-founded recursion
are written with an explicit fuel argument (always instantiated large enough
to cover the Python loop, see the individual comments), so that every
definition evaluates by kernel reduction.
-/

namespace XlTable

/-- Scalar cell values: Python ints, bools and strings.
Floats are not modelled (no claim depends on them). -/
inductive Scalar where
  | i (n : Int)
  | b (v : Bool)
  | str (v : String)
  deriving DecidableEq, Repr

/-- Python exceptions raised by the library, distinguished the way the
source distinguishes them (exception class and message shape).
`keyError` is a plain dictionary `KeyError(key)` (the key may be `None`);
`labelNotFound` is the formatted `KeyError` from
`Table.get_column_offset` / `get_row_offset`; `noIndex` is the formatted
`KeyError` from `Table.get_index_offset`. -/
inductive Err where
  | keyError (key : Option String)
  | labelNotFound (msg : String)
  | noIndex (table : String)
  | assertionError (msg : String)
  | runtimeError (msg : String)
  | indexError
  | attributeError (msg : String)
  | typeError
  deriving DecidableEq, Repr

mutual
/-- `expression.Expression`: a node is its variant-specific data
(`ExprKind`) together with the optional stored `_Expression__value`
(set by `Expression.__init__` or the `value` property setter; the stored
value may itself be an `Expression`). -/
inductive Expr where
  | mk (kind : ExprKind) (stored : Option StoredVal)

/-- What can be stored in `Expression.__value`: a scalar or another
expression. -/
inductive StoredVal where
  | scalar (s : Scalar)
  | expr (e : Expr)

/-- The expression variants (`Cell`, `Column`, `Index`, `Range`,
`Formula`, `BinOp`, `ConstExpr`) with the fields their constructors
store. -/
inductive ExprKind where
  | cell (col : String) (row : Option String) (rowOffset : Int) (table : Option String)
  | column (col : String) (includeHeader : Bool) (table : Option String)
  | index (includeHeader : Bool) (table : Option String)
  | range (leftCol rightCol : String) (topRow bottomRow : Option String)
          (includeHeader : Bool) (table : Option String)
  | formula (name : String) (args : List FormulaArg)
  | binOp (lhs rhs : Expr) (op : String)
  | constE (v : Scalar)

/-- An argument of `Formula`: `None`, a raw scalar, or an expression
(`_make_expr` is applied only at resolve time, as in the source). -/
inductive FormulaArg where
  | none_
  | scalar (s : Scalar)
  | expr (e : Expr)
end

/-- `Expression.value` property: unset values default to `0`; a stored
expression delegates recursively. -/
def Expr.value : Expr → Scalar
  | .mk _ none => .i 0
  | .mk _ (some (.scalar s)) => s
  | .mk _ (some (.expr e)) => e.value

/-- `Expression.has_value` property: `False` when unset, delegating
recursively through a stored expression. -/
def Expr.has_value : Expr → Bool
  | .mk _ none => false
  | .mk _ (some (.scalar _)) => true
  | .mk _ (some (.expr e)) => e.has_value

/-- The `value` property setter (`self.__value = value`). -/
def Expr.setValue : Expr → StoredVal → Expr
  | .mk k _, v => .mk k (some v)

/-- The variant data of a node. -/
def Expr.kind : Expr → ExprKind
  | .mk k _ => k

/-- Numeric view used for Python's int/bool arithmetic coercion
(`True == 1`, `True + True == 2`). -/
def Scalar.asNum? : Scalar → Option Int
  | .i n => some n
  | .b true => some 1
  | .b false => some 0
  | .str _ => none

/-- `BinOp.__operators[op](lhs.value, rhs.value)`: the scalar semantics of
each operator string, on the modelled scalar types.  `/` (Python
`operator.truediv`, which returns a float) and bitwise `&`/`|` on ints are
not modelled and yield `typeError`; an operator string missing from the
table is the dictionary `KeyError` of the source. -/
def applyOp (op : String) (x y : Scalar) : Except Err Scalar :=
  match op with
  | "+" =>
    match x, y with
    | .str a, .str b => .ok (.str (a ++ b))
    | _, _ =>
      match x.asNum?, y.asNum? with
      | some a, some b => .ok (.i (a + b))
      | _, _ => .error .typeError
  | "-" =>
    match x.asNum?, y.asNum? with
    | some a, some b => .ok (.i (a - b))
    | _, _ => .error .typeError
  | "*" =>
    match x.asNum?, y.asNum? with
    | some a, some b => .ok (.i (a * b))
    | _, _ => .error .typeError
  | "/" => .error .typeError
  | "<" =>
    match x, y with
    | .str a, .str b => .ok (.b (decide (a < b)))
    | _, _ =>
      match x.asNum?, y.asNum? with
      | some a, some b => .ok (.b (decide (a < b)))
      | _, _ => .error .typeError
  | "<=" =>
    match x, y with
    | .str a, .str b => .ok (.b (decide (a < b) || decide (a = b)))
    | _, _ =>
      match x.asNum?, y.asNum? with
      | some a, some b => .ok (.b (decide (a ≤ b)))
      | _, _ => .error .typeError
  | ">" =>
    match x, y with
    | .str a, .str b => .ok (.b (decide (b < a)))
    | _, _ =>
      match x.asNum?, y.asNum? with
      | some a, some b => .ok (.b (decide (b < a)))
      | _, _ => .error .typeError
  | ">=" =>
    match x, y with
    | .str a, .str b => .ok (.b (decide (b < a) || decide (a = b)))
    | _, _ =>
      match x.asNum?, y.asNum? with
      | some a, some b => .ok (.b (decide (b ≤ a)))
      | _, _ => .error .typeError
  | "=" =>
    match x, y with
    | .str a, .str b => .ok (.b (decide (a = b)))
    | _, _ =>
      match x.asNum?, y.asNum? with
      | some a, some b => .ok (.b (decide (a = b)))
      | _, _ => .ok (.b false)
  | "!=" =>
    match x, y with
    | .str a, .str b => .ok (.b (decide (a ≠ b)))
    | _, _ =>
      match x.asNum?, y.asNum? with
      | some a, some b => .ok (.b (decide (a ≠ b)))
      | _, _ => .ok (.b true)
  | "&" =>
    match x, y with
    | .b a, .b b => .ok (.b (a && b))
    | _, _ => .error .typeError
  | "|" =>
    match x, y with
    | .b a, .b b => .ok (.b (a || b))
    | _, _ => .error .typeError
  | _ => .error (.keyError (some op))

/-- `BinOp.__init__`: stores the operands and operator; when both
operands carry a value, folds them through the operator table and stores
the result (`self.value = self.__operators[op](lhs.value, rhs.value)`).
A failure of the fold (Python `TypeError` / `KeyError`) aborts
construction. -/
def BinOp.make (lhs rhs : Expr) (op : String) : Except Err Expr :=
  if lhs.has_value && rhs.has_value then
    match applyOp op lhs.value rhs.value with
    | .ok v => .ok (.mk (.binOp lhs rhs op) (some (.scalar v)))
    | .error e => .error e
  else
    .ok (.mk (.binOp lhs rhs op) none)

/-- `_make_expr`: pass expressions through, wrap anything else in
`ConstExpr` (whose constructor stores the value). -/
def make_expr : Scalar ⊕ Expr → Expr
  | .inr e => e
  | .inl s => .mk (.constE s) (some (.scalar s))

/-- `Expression.__eq__` -/
def Expr.eqOp (a : Expr) (other : Scalar ⊕ Expr) : Except Err Expr :=
  BinOp.make a (make_expr other) "="

/-- `Expression.__ne__` -/
def Expr.neOp (a : Expr) (other : Scalar ⊕ Expr) : Except Err Expr :=
  BinOp.make a (make_expr other) "!="

/-- `Expression.__lt__` -/
def Expr.ltOp (a : Expr) (other : Scalar ⊕ Expr) : Except Err Expr :=
  BinOp.make a (make_expr other) "<"

/-- `Expression.__le__` -/
def Expr.leOp (a : Expr) (other : Scalar ⊕ Expr) : Except Err Expr :=
  BinOp.make a (make_expr other) "<="

/-- `Expression.__gt__` -/
def Expr.gtOp (a : Expr) (other : Scalar ⊕ Expr) : Except Err Expr :=
  BinOp.make a (make_expr other) ">"

/-- `Expression.__ge__` -/
def Expr.geOp (a : Expr) (other : Scalar ⊕ Expr) : Except Err Expr :=
  BinOp.make a (make_expr other) ">="

/-! ## Address arithmetic (`_to_addr`) -/

/-- The column-letter loop of `_to_addr` on the 1-based column number
`n`: `while col > 0: addr = chr(A + ((col-1) % 26)) + addr; col = (col-1) // 26`.
The first argument is fuel bounding the number of loop iterations; the
loop value strictly decreases, so fuel `n` always suffices
(see `lettersAux_fuel`). -/
def lettersAux : Nat → Nat → List Char
  | 0, _ => []
  | _, 0 => []
  | fuel + 1, n + 1 => lettersAux fuel (n / 26) ++ [Char.ofNat (65 + n % 26)]

/-- Column letters of the 1-based column number. -/
def lettersOneBased (n : Nat) : List Char :=
  lettersAux n n

/-- Column letters of a zero-based column (`col += 1` before the loop). -/
def colLetters (col : Nat) : List Char :=
  lettersOneBased (col + 1)

/-- `_to_addr(worksheet, row, col, fixed)`.  Coordinates are Python ints;
a non-positive 1-based column number skips the letter loop. -/
def to_addr (worksheet : Option String) (row col : Int) (fixed : Bool) : String :=
  let addr := String.mk (lettersOneBased (col + 1).toNat)
  let prefixStr := match worksheet with
    | some ws => "'" ++ ws ++ "'!"
    | none => ""
  if fixed then
    prefixStr ++ "$" ++ addr ++ "$" ++ toString (row + 1)
  else
    prefixStr ++ addr ++ toString (row + 1)

/-- Decoding column letters back to a zero-based column index: base-26
with the 1-based correction (`A`=1, ..., `Z`=26), minus one. -/
def decodeCol (letters : List Char) : Nat :=
  (letters.foldl (fun a c => a * 26 + (c.toNat - 64)) 0) - 1

/-! ## Data model: cells, axes, frames and tables -/

/-- A cell of a table's dataframe: empty (`None`/`NaN`), a scalar, an
`Expression`, or a `Value` wrapper (`table.Value`; its style attachment
is dropped here because none of the modelled operations read it on the
data path). -/
inductive CellVal where
  | na
  | s (v : Scalar)
  | expr (e : Expr)
  | value (inner : CellVal)

/-- A pandas axis (`df.index` / `df.columns`): a flat `Index` with an
optional name and string labels, or a `MultiIndex` with one optional
name per level and tuple labels. -/
inductive AxisIdx where
  | flat (name : Option String) (labels : List String)
  | multi (names : List (Option String)) (labels : List (List String))
  deriving DecidableEq, Repr

/-- `len(axis)` -/
def AxisIdx.length : AxisIdx → Nat
  | .flat _ ls => ls.length
  | .multi _ ls => ls.length

/-- Number of levels; for a pandas `MultiIndex`, `len(names)` and
`len(levels)` agree, both modelled by the length of `names`. -/
def AxisIdx.nlevels : AxisIdx → Nat
  | .flat _ _ => 1
  | .multi ns _ => ns.length

/-- pandas `Index.get_loc` for a single string key: position of the
first matching label; raises `KeyError` (here `none`) when absent.  On a
`MultiIndex` this models the partial level-0 match when it is unique
(pandas' slice results for repeated keys are not modelled). -/
def AxisIdx.get_loc : AxisIdx → String → Option Nat
  | .flat _ ls, l => ls.findIdx? (fun x => x == l)
  | .multi _ ls, l => ls.findIdx? (fun tup => tup.head? == some l)

/-- A pandas DataFrame as the table layout engine consumes it: the two
axes and the row-major cell grid. -/
structure Frame where
  index : AxisIdx
  columns : AxisIdx
  cells : List (List CellVal)

/-- `table.Table` — name, dataframe and the two layout flags.  The style
attachments (`style`, `column_styles`, `row_styles`, `header_style`,
`index_style`, `column_widths`) are not modelled: no claim reads them. -/
structure Table where
  name : String
  df : Frame
  include_columns : Bool := true
  include_index : Bool := false

/-- `Table.header_height` -/
def Table.header_height (t : Table) : Nat :=
  if t.include_columns then
    match t.df.columns with
    | .multi ns _ => ns.length
    | .flat _ _ => 1
  else 0

/-- `Table.row_labels_width` -/
def Table.row_labels_width (t : Table) : Nat :=
  if t.include_index then
    match t.df.index with
    | .multi ns _ => ns.length
    | .flat _ _ => 1
  else 0

/-- `Table.width` -/
def Table.width (t : Table) : Nat :=
  t.df.columns.length + t.row_labels_width

/-- `Table.height` -/
def Table.height (t : Table) : Nat :=
  t.df.index.length + t.header_height

/-- `Table.get_column_offset`: column position plus the index width;
`KeyError("Column '%s' not found in table %s")` when the label is
absent. -/
def Table.get_column_offset (t : Table) (c : String) : Except Err Nat :=
  match t.df.columns.get_loc c with
  | some i => .ok (i + t.row_labels_width)
  | none => .error (.labelNotFound ("Column '" ++ c ++ "' not found in table " ++ t.name))

/-- `Table.get_index_offset`: `0` when the table includes its index,
`KeyError("Table '%s' has no index")` otherwise. -/
def Table.get_index_offset (t : Table) : Except Err Nat :=
  if t.include_index then .ok 0
  else .error (.noIndex ("Table '" ++ t.name ++ "' has no index"))

/-- `Table.get_row_offset`: row position plus the header height;
`KeyError("Row '%s' not found in table %s")` when the label is absent. -/
def Table.get_row_offset (t : Table) (r : String) : Except Err Nat :=
  match t.df.index.get_loc r with
  | some i => .ok (i + t.header_height)
  | none => .error (.labelNotFound ("Row '" ++ r ++ "' not found in table " ++ t.name))

/-! ## Structural equality, standing in for Python object identity

`Workbook.get_table(None)` compares tables with Python's `is`; the
embedding uses structural equality, which identifies the registered
table object with itself.  Fuel-based so that it evaluates by kernel
reduction; `sizeOf` bounds the expression depth, so the fuel used by
`Expr.beq` always suffices. -/

mutual
/-- Size of an expression tree, bounding its depth; supplies the fuel
for `Expr.beq`. -/
def Expr.size : Expr → Nat
  | .mk k s => 1 + ExprKind.size k + storedSize s

/-- Size of an optional stored value. -/
def storedSize : Option StoredVal → Nat
  | none => 0
  | some (.scalar _) => 1
  | some (.expr e) => 1 + Expr.size e

/-- Size of the variant data. -/
def ExprKind.size : ExprKind → Nat
  | .binOp l r _ => 1 + Expr.size l + Expr.size r
  | .formula _ args => 1 + argsSize args
  | _ => 1

/-- Size of a formula argument list. -/
def argsSize : List FormulaArg → Nat
  | [] => 0
  | .none_ :: rest => 1 + argsSize rest
  | .scalar _ :: rest => 1 + argsSize rest
  | .expr e :: rest => 1 + Expr.size e + argsSize rest
end

/-- Structural equality of expressions (fuel-bounded). -/
def Expr.beqFuel : Nat → Expr → Expr → Bool
  | 0, _, _ => false
  | fuel + 1, .mk k1 s1, .mk k2 s2 =>
    (match k1, k2 with
     | .cell a b c d, .cell a' b' c' d' => a == a' && b == b' && c == c' && d == d'
     | .column a b c, .column a' b' c' => a == a' && b == b' && c == c'
     | .index a b, .index a' b' => a == a' && b == b'
     | .range a b c d e f, .range a' b' c' d' e' f' =>
         a == a' && b == b' && c == c' && d == d' && e == e' && f == f'
     | .formula n as, .formula n' as' =>
         n == n' && as.length == as'.length &&
         (as.zip as').all (fun p =>
           match p.1, p.2 with
           | .none_, .none_ => true
           | .scalar x, .scalar y => x == y
           | .expr x, .expr y => Expr.beqFuel fuel x y
           | _, _ => false)
     | .binOp l r o, .binOp l' r' o' =>
         Expr.beqFuel fuel l l' && Expr.beqFuel fuel r r' && o == o'
     | .constE v, .constE v' => v == v'
     | _, _ => false)
    &&
    (match s1, s2 with
     | none, none => true
     | some (.scalar a), some (.scalar b) => a == b
     | some (.expr a), some (.expr b) => Expr.beqFuel fuel a b
     | _, _ => false)

/-- Structural equality of expressions: `Expr.size` bounds the depth,
so the fuel always suffices. -/
def Expr.beq (a b : Expr) : Bool :=
  Expr.beqFuel (Expr.size a + 1) a b

/-- Structural equality of cells. -/
def CellVal.beq : CellVal → CellVal → Bool
  | .na, .na => true
  | .s a, .s b => a == b
  | .expr a, .expr b => Expr.beq a b
  | .value a, .value b => CellVal.beq a b
  | _, _ => false

/-- Structural equality of cell grids. -/
def gridBeq (g1 g2 : List (List CellVal)) : Bool :=
  g1.length == g2.length &&
  (g1.zip g2).all (fun p =>
    p.1.length == p.2.length && (p.1.zip p.2).all (fun q => CellVal.beq q.1 q.2))

/-- Structural equality of frames. -/
def Frame.beq (f1 f2 : Frame) : Bool :=
  f1.index == f2.index && f1.columns == f2.columns && gridBeq f1.cells f2.cells

/-- Structural equality of tables. -/
def Table.beq (t1 t2 : Table) : Bool :=
  t1.name == t2.name && Frame.beq t1.df t2.df &&
  t1.include_columns == t2.include_columns && t1.include_index == t2.include_index

/-! ## Worksheet: placement state -/

/-- `worksheet.Worksheet`: the table registry (a dict keyed by table
name, with `None` as a legal key because `iterrows` temporarily
registers the current table under it), the free-standing values, and the
`next_row` cursor.  Charts and row groups are not modelled (no claim
reads them). -/
structure Worksheet where
  name : String := "Sheet1"
  tables : List (Option String × Table × Nat × Nat) := []
  values : List ((Nat × Nat) × CellVal) := []
  next_row : Nat := 0

/-- Dictionary lookup in the table registry (first matching key; keys
are unique because `add_table` rejects duplicates). -/
def Worksheet.findEntry (ws : Worksheet) (k : Option String) : Option (Table × Nat × Nat) :=
  (ws.tables.find? (fun e => e.1 == k)).map (·.2)

/-- `Worksheet.get_table`: `self.__tables[tablename]`, raising
`KeyError(tablename)` when absent. -/
def Worksheet.get_table (ws : Worksheet) (k : Option String) : Except Err Table :=
  match ws.findEntry k with
  | some (t, _, _) => .ok t
  | none => .error (.keyError k)

/-- `Worksheet.get_table_pos`: upper-left `(row, col)` of the named
table, `KeyError(tablename)` when absent. -/
def Worksheet.get_table_pos (ws : Worksheet) (k : Option String) : Except Err (Nat × Nat) :=
  match ws.findEntry k with
  | some (_, r, c) => .ok (r, c)
  | none => .error (.keyError k)

/-- `Worksheet.add_table(table, row=None, col=0, row_spaces=1)`: asserts
the name is fresh, defaults the row to the cursor, advances the cursor to
`max(row + table.height + row_spaces, next_row)` and registers the
table.  (The `name is not None` assertion of the source always holds
here since table names are strings.)  Returns the updated worksheet and
the placement. -/
def Worksheet.add_table (ws : Worksheet) (t : Table) (row? : Option Nat)
    (col : Nat := 0) (row_spaces : Nat := 1) : Except Err (Worksheet × Nat × Nat) :=
  if ws.tables.any (fun e => e.1 == some t.name) then
    .error (.assertionError ("Table " ++ t.name ++ " already exists in this worksheet"))
  else
    let row := row?.getD ws.next_row
    .ok ({ ws with
            next_row := max (row + t.height + row_spaces) ws.next_row,
            tables := ws.tables ++ [(some t.name, t, row, col)] },
         row, col)

/-- `Worksheet.add_value(value, row, col)`: sets `__values[(row, col)]`,
overwriting an existing entry for the same coordinate as a dict
assignment does. -/
def Worksheet.add_value (ws : Worksheet) (v : CellVal) (row col : Nat) : Worksheet :=
  { ws with values :=
      (ws.values.filter (fun e => e.1 ≠ (row, col))) ++ [((row, col), v)] }

/-! ## Workbook: cross-sheet registry and lookup -/

/-- `workbook.Workbook`: the ordered worksheets and the two per-export
transient pointers.  `filename`, `calc_mode` and the backend workbook
object are not modelled (no claim reads them). -/
structure Workbook where
  worksheets : List Worksheet := []
  active_table : Option Table := none
  active_worksheet : Option Worksheet := none

/-- `str.strip("'")`: remove every leading and trailing apostrophe. -/
def stripQuotes (s : String) : String :=
  String.mk (((s.data.dropWhile (fun c => c = '\'')).reverse.dropWhile
    (fun c => c = '\'')).reverse)

/-- `name.split("!", 1)`: the part before the first `!` and the rest. -/
def splitFirstBang (s : String) : String × String :=
  let pre := s.data.takeWhile (fun c => c ≠ '!')
  (String.mk pre, String.mk (s.data.drop (pre.length + 1)))

/-- The fallback scan of `Workbook.get_table` for an unqualified name:
`for ws in worksheets: try return ws.get_table(name), ws except KeyError: pass`. -/
def scanFirst : List Worksheet → String → Option (Table × Worksheet)
  | [], _ => none
  | ws :: rest, n =>
    match ws.findEntry (some n) with
    | some (t, _, _) => some (t, ws)
    | none => scanFirst rest n

/-- The scan of `Workbook.get_table(None)` for the worksheet owning the
active table: first worksheet whose table of that name `is` the active
table; a `KeyError` or a non-identical table lets the loop continue. -/
def scanActive : List Worksheet → String → Table → Option (Table × Worksheet)
  | [], _, _ => none
  | ws :: rest, nm, activeT =>
    match ws.findEntry (some nm) with
    | some (t, _, _) =>
      if Table.beq t activeT then some (t, ws) else scanActive rest nm activeT
    | none => scanActive rest nm activeT

/-- `Workbook.get_table(name)`: resolve a table name (or `None`) to a
`(table, worksheet)` pair, following the source's three branches:
active-table lookup for `None`, sheet-qualified lookup for names
containing `!`, and active-worksheet-then-scan for unqualified names.
Note that when an active worksheet is set, a `KeyError` from its registry
propagates — the source does not fall back to scanning the other
worksheets in that case. -/
def Workbook.get_table (wb : Workbook) (name : Option String) : Except Err (Table × Worksheet) :=
  match name with
  | none =>
    match wb.active_table with
    | none => .error (.assertionError "Can't get table without name unless an active table is set")
    | some activeT =>
      let nm := activeT.name
      match wb.active_worksheet with
      | some aws =>
        match aws.get_table (some nm) with
        | .error e => .error e
        | .ok t =>
          if Table.beq t activeT then .ok (t, aws)
          else .error (.assertionError "Active table is not from the active sheet")
      | none =>
        match scanActive wb.worksheets nm activeT with
        | some (t, ws) => .ok (t, ws)
        | none => .error (.runtimeError "Active table not found in any sheet")
  | some n =>
    if n.data.any (fun c => c == '!') then
      let (wsName, tableName) := splitFirstBang n
      let wsName := stripQuotes wsName
      let tableName := stripQuotes tableName
      match wb.worksheets.find? (fun ws => ws.name == wsName) with
      | some ws => (ws.get_table (some tableName)).map (fun t => (t, ws))
      | none => .error (.keyError (some n))
    else
      match wb.active_worksheet with
      | some aws => (aws.get_table (some n)).map (fun t => (t, aws))
      | none =>
        match scanFirst wb.worksheets n with
        | some (t, ws) => .ok (t, ws)
        | none => .error (.keyError (some n))

/-! ## Expression resolution -/

/-- `Expression._strip`: `re.sub("^\((.*)\)$", r"\1", x)` — remove one
pair of enclosing parentheses when both are present.  (The regex's
refusal to match across a newline is not modelled; resolved fragments
never contain newlines.) -/
def strip (x : String) : String :=
  if 2 ≤ x.length ∧ x.front = '(' ∧ x.back = ')' then (x.drop 1).dropRight 1
  else x

/-- Accessing `workbook.get_table` when the workbook argument is `None`
is the Python `AttributeError` on `NoneType`. -/
def requireWorkbook : Option Workbook → Except Err Workbook
  | some wb => .ok wb
  | none => .error (.attributeError "get_table")

/-- `Cell.resolve(workbook, row, col)`: locate the table and its
placement, compute the column offset; with a row label the row is
looked up and the address is fixed, otherwise the requesting row is
used relative. -/
def cellResolve (c : String) (r : Option String) (off : Int) (tbl : Option String)
    (wb? : Option Workbook) (row col : Int) : Except Err String := do
  let wb ← requireWorkbook wb?
  let (t, ws) ← wb.get_table tbl
  let (top, left) ← ws.get_table_pos (some t.name)
  let colOffset ← t.get_column_offset c
  match r with
  | none =>
    .ok (to_addr (some ws.name) ((top : Int) + row + off) ((left : Int) + colOffset) false)
  | some rl => do
    let rowIdx ← t.get_row_offset rl
    .ok (to_addr (some ws.name) ((top : Int) + rowIdx + off) ((left : Int) + colOffset) true)

/-- `Column.resolve(workbook, row, col)`: the full-height fixed range of
one column, from below the header (or its top when included) to the
table's last row. -/
def columnResolve (c : String) (includeHeader : Bool) (tbl : Option String)
    (wb? : Option Workbook) (_row _col : Int) : Except Err String := do
  let wb ← requireWorkbook wb?
  let (t, ws) ← wb.get_table tbl
  let (top, left) ← ws.get_table_pos (some t.name)
  let colOffset ← t.get_column_offset c
  let rowOffset : Nat := if includeHeader then 0 else t.header_height
  .ok ("'" ++ ws.name ++ "'!"
    ++ to_addr none ((top : Int) + rowOffset) ((left : Int) + colOffset) true
    ++ ":"
    ++ to_addr none ((top : Int) + t.height - 1) ((left : Int) + colOffset) true)

/-- `Index.resolve(workbook, row, col)`: the range over the row-label
column; `Table.get_index_offset` raises when the table has no index. -/
def indexResolve (includeHeader : Bool) (tbl : Option String)
    (wb? : Option Workbook) (_row _col : Int) : Except Err String := do
  let wb ← requireWorkbook wb?
  let (t, ws) ← wb.get_table tbl
  let (top, left) ← ws.get_table_pos (some t.name)
  let colOffset ← t.get_index_offset
  let rowOffset : Nat := if includeHeader then 0 else t.header_height
  .ok ("'" ++ ws.name ++ "'!"
    ++ to_addr none ((top : Int) + rowOffset) ((left : Int) + colOffset) true
    ++ ":"
    ++ to_addr none ((top : Int) + t.height - 1) ((left : Int) + colOffset) true)

/-- `Range.resolve(workbook, row, col)`: sub-rectangle between two
column labels; omitted row bounds default to the header/first row and
the last row. -/
def rangeResolve (leftCol rightCol : String) (topRow bottomRow : Option String)
    (includeHeader : Bool) (tbl : Option String)
    (wb? : Option Workbook) (_row _col : Int) : Except Err String := do
  let wb ← requireWorkbook wb?
  let (t, ws) ← wb.get_table tbl
  let (top, left) ← ws.get_table_pos (some t.name)
  let leftColOffset ← t.get_column_offset leftCol
  let rightColOffset ← t.get_column_offset rightCol
  let topRowOffset : Nat ← match topRow with
    | none => pure (if includeHeader then 0 else t.header_height)
    | some r => t.get_row_offset r
  let bottomRowOffset : Int ← match bottomRow with
    | none => pure ((t.height : Int) - 1)
    | some r => (t.get_row_offset r).map (fun n => (n : Int))
  .ok ("'" ++ ws.name ++ "'!"
    ++ to_addr none ((top : Int) + topRowOffset) ((left : Int) + leftColOffset) true
    ++ ":"
    ++ to_addr none ((top : Int) + bottomRowOffset) ((left : Int) + rightColOffset) true)

/-- `ConstExpr.resolve`: strings quoted, booleans as `TRUE`/`FALSE`,
numbers stringified. -/
def constResolve (v : Scalar) : Except Err String :=
  match v with
  | .str s => .ok ("\"" ++ s ++ "\"")
  | .b true => .ok "TRUE"
  | .b false => .ok "FALSE"
  | .i n => .ok (toString n)

/-- `Expression.resolve(workbook, row, col)`, dispatching to the
variant resolvers; the fuel bounds the recursion depth through
`Formula` arguments and `BinOp` operands (`Expr.size` always
suffices: every recursive call is on a subexpression). -/
def Expr.resolveFuel : Nat → Expr → Option Workbook → Int → Int → Except Err String
  | 0, _, _, _, _ => .error (.runtimeError "maximum recursion depth exceeded")
  | fuel + 1, e, wb?, row, col =>
    match e.kind with
    | .cell c r off tbl => cellResolve c r off tbl wb? row col
    | .column c includeHeader tbl => columnResolve c includeHeader tbl wb? row col
    | .index includeHeader tbl => indexResolve includeHeader tbl wb? row col
    | .range leftCol rightCol topRow bottomRow includeHeader tbl =>
      rangeResolve leftCol rightCol topRow bottomRow includeHeader tbl wb? row col
    | .formula nm args =>
      -- `Formula.resolve`: each argument is `_make_expr`-wrapped,
      -- resolved, stripped; a `None` argument renders as ""
      (args.mapM (fun a =>
        show Except Err String from
        match a with
        | .none_ => pure ""
        | .scalar s =>
          (Expr.resolveFuel fuel (make_expr (.inl s)) wb? row col).map strip
        | .expr e2 =>
          (Expr.resolveFuel fuel e2 wb? row col).map strip)).map
        (fun l => nm ++ "(" ++ String.intercalate "," l ++ ")")
    | .binOp l r op => do
      -- `BinOp.resolve`: "(lhs<op>rhs)"
      let ls ← Expr.resolveFuel fuel l wb? row col
      let rs ← Expr.resolveFuel fuel r wb? row col
      .ok ("(" ++ ls ++ op ++ rs ++ ")")
    | .constE v => constResolve v

/-- `Expression.resolve` with sufficient fuel. -/
def Expr.resolve (e : Expr) (wb? : Option Workbook) (row col : Int) : Except Err String :=
  Expr.resolveFuel (Expr.size e + 1) e wb? row col

/-- `Expression.get_formula`: `"=" + self._strip(self.resolve(...))`. -/
def Expr.get_formula (e : Expr) (wb? : Option Workbook) (row col : Int) : Except Err String :=
  (e.resolve wb? row col).map (fun s => "=" ++ strip s)

/-! ## Table layout and grid materialization (`Table.get_data`) -/

/-- `isinstance(x, Expression)` -/
def cellIsExpr : CellVal → Bool
  | .expr _ => true
  | _ => false

/-- `mask_df.any().any()` -/
def gridHasExpr (g : List (List CellVal)) : Bool :=
  g.any (fun r => r.any cellIsExpr)

/-- `x.value if isinstance(x, Value) else x` -/
def unwrapValue : CellVal → CellVal
  | .value inner => inner
  | x => x

/-- `"%s" % x` for an optional string (`None` prints as `"None"`). -/
def pyStr : Option String → String
  | none => "None"
  | some s => s

/-- The collision loop appending `_1`, `_2`, ... until the candidate is
not among the labels: `while name in labels: name = "%s_%d" % (base, i); i += 1`.
Candidates are pairwise distinct, so fuel `labels.length + 1` always
finds a free one. -/
def freshSuffixed (base : Option String) (labels : List String) : Nat → Nat → String
  | i, 0 => pyStr base ++ "_" ++ toString i
  | i, fuel + 1 =>
    let cand := pyStr base ++ "_" ++ toString i
    if labels.contains cand then freshSuffixed base labels (i + 1) fuel else cand

/-- The header name for a flat index (`index_name = df.index.name`, then
the collision loop; a `None` name is never an element of the string
labels, so the loop body never runs for it). -/
def freshIndexName (base : Option String) (labels : List String) : Option String :=
  match base with
  | none => none
  | some s =>
    if labels.contains s then some (freshSuffixed base labels 1 (labels.length + 1))
    else some s

/-- The index-header column name for flat columns
(`columns_name = df.columns.name or ""`, then the collision loop whose
candidates use the raw name). -/
def freshColumnsName (base : Option String) (labels : List String) : String :=
  let c0 := base.getD ""
  if labels.contains c0 then freshSuffixed base labels 1 (labels.length + 1)
  else c0

/-- The multi-level collision loop on name tuples
(`tuple("%s_%d" % (x or "", i) for x in names)`). -/
def freshMultiAux (names : List (Option String)) (labels : List (List String)) :
    Nat → Nat → List String
  | i, 0 => names.map (fun x => x.getD "" ++ "_" ++ toString i)
  | i, fuel + 1 =>
    let cand := names.map (fun x => x.getD "" ++ "_" ++ toString i)
    if labels.contains cand then freshMultiAux names labels (i + 1) fuel else cand

/-- The header name tuple for a multi-level axis
(`tuple(x or "" for x in names)`, then the collision loop). -/
def freshMultiName (names : List (Option String)) (labels : List (List String)) : List String :=
  let c0 := names.map (fun x => x.getD "")
  if labels.contains c0 then freshMultiAux names labels 1 (labels.length + 1)
  else c0

/-- An axis after the header/index expansion prepended its labels: a
list of optional strings (flat) or of tuples of optional strings
(multi-level); `none` entries are the `None` paddings and the blank
header cells. -/
inductive NewAxis where
  | flat (labels : List (Option String))
  | multi (labels : List (List (Option String)))
  deriving DecidableEq, Repr

/-- Number of axis entries after expansion. -/
def NewAxis.length : NewAxis → Nat
  | .flat ls => ls.length
  | .multi ls => ls.length

/-- An unexpanded axis, as `NewAxis` (`index = df.index`). -/
def toNewAxis : AxisIdx → NewAxis
  | .flat _ ls => .flat (ls.map some)
  | .multi _ ls => .multi (ls.map (fun tup => tup.map some))

/-- A label written into a grid cell (a `None` label is an empty cell). -/
def optToCell : Option String → CellVal
  | none => .na
  | some s => .s (.str s)

/-- The expanded row labels when headers are included: the (collision
suffixed) index name(s) prepended to the row labels, plus one `None` row
per extra column level (`[blank_tuple] * (len(df.columns.levels) - 1)`).
This is `index` as built at worksheet.py's `get_data` lines 236-257. -/
def expandedIndex (index columns : AxisIdx) : NewAxis :=
  match index with
  | .multi ns ls =>
    let tuples := [(freshMultiName ns ls).map some] ++ ls.map (fun tup => tup.map some)
    let tuples :=
      match columns with
      | .multi cns _ =>
        List.replicate (cns.length - 1) (List.replicate ns.length (none : Option String)) ++ tuples
      | .flat _ _ => tuples
    .multi tuples
  | .flat nm ls =>
    let lst := [freshIndexName nm ls] ++ ls.map some
    let lst :=
      match columns with
      | .multi cns _ => List.replicate (cns.length - 1) (none : Option String) ++ lst
      | .flat _ _ => lst
    .flat lst

/-- The expanded column labels when the index is included: the
(collision suffixed) columns name(s) prepended to the column labels,
plus one `None` column per extra index level.  This is `columns` as
built at `get_data` lines 259-281. -/
def expandedColumns (index columns : AxisIdx) : NewAxis :=
  match columns with
  | .multi ns ls =>
    let tuples := [(freshMultiName ns ls).map some] ++ ls.map (fun tup => tup.map some)
    let tuples :=
      match index with
      | .multi ins _ =>
        List.replicate (ins.length - 1) (List.replicate ns.length (none : Option String)) ++ tuples
      | .flat _ _ => tuples
    .multi tuples
  | .flat nm ls =>
    let lst := [some (freshColumnsName nm ls)] ++ ls.map some
    let lst :=
      match index with
      | .multi ins _ => List.replicate (ins.length - 1) (none : Option String) ++ lst
      | .flat _ _ => lst
    .flat lst

/-- Resolve the expression cells of one data row (row index `r`, walking
the columns from `c`): each `Expression` cell is replaced by its
resolved formula string, targeting the coordinates offset by the header
height `hh` and index width `ilw`; when the expression carries a value
it is recorded in `formula_values` keyed by the absolute sheet
coordinates (offset by the placement `row`/`col`). -/
def resolveRowCells (wb? : Option Workbook) (hh ilw row col r : Nat) :
    Nat → List CellVal → List ((Nat × Nat) × Scalar) →
    Except Err (List CellVal × List ((Nat × Nat) × Scalar))
  | _, [], fv => .ok ([], fv)
  | c0, cell :: rest, fv =>
    match cell with
    | .expr e => do
      let rr := r + hh
      let cc := c0 + ilw
      let fv := if e.has_value then fv ++ [((rr + row, cc + col), e.value)] else fv
      let s ← e.get_formula wb? (rr : Int) (cc : Int)
      let (restOut, fvOut) ← resolveRowCells wb? hh ilw row col r (c0 + 1) rest fv
      .ok (CellVal.s (.str s) :: restOut, fvOut)
    | other => do
      let (restOut, fvOut) ← resolveRowCells wb? hh ilw row col r (c0 + 1) rest fv
      .ok (other :: restOut, fvOut)

/-- Resolve the expression cells of the whole grid (the
`df[mask_df] = index_df[mask_df].applymap(...)` step; the order in which
`formula_values` entries are appended differs from pandas' column-major
`applymap` order, which is unobservable for a dict). -/
def resolveCells (wb? : Option Workbook) (hh ilw row col : Nat) :
    Nat → List (List CellVal) → List ((Nat × Nat) × Scalar) →
    Except Err (List (List CellVal) × List ((Nat × Nat) × Scalar))
  | _, [], fv => .ok ([], fv)
  | r, rowCells :: rest, fv => do
    let (rowOut, fv) ← resolveRowCells wb? hh ilw row col r 0 rowCells fv
    let (restOut, fvOut) ← resolveCells wb? hh ilw row col (r + 1) rest fv
    .ok (rowOut :: restOut, fvOut)

/-- The `iloc` write of the column labels (`df.iloc[i, :] = level i`
components for a `MultiIndex`, `df.iloc[0, :] = df.columns` for a flat
one). -/
def writeColumnLabels (ax : NewAxis) (nlv : Nat) (g : List (List CellVal)) :
    List (List CellVal) :=
  match ax with
  | .multi tuples =>
    (List.range nlv).foldl
      (fun g i => g.set i (tuples.map (fun tup => optToCell (tup.getD i none)))) g
  | .flat labels => g.set 0 (labels.map optToCell)

/-- The `iloc` write of the row labels (`df.iloc[:, i] = level i`
components for a `MultiIndex`, `df.iloc[:, 0] = df.index` for a flat
one). -/
def writeIndexLabels (ax : NewAxis) (nlv : Nat) (g : List (List CellVal)) :
    List (List CellVal) :=
  match ax with
  | .multi tuples =>
    (List.range nlv).foldl
      (fun g i => List.zipWith (fun r tup => r.set i (optToCell (tup.getD i none))) g tuples) g
  | .flat labels => List.zipWith (fun r lbl => r.set 0 (optToCell lbl)) g labels

/-- The header/index expansion block of `Table.get_data` (table.py
lines 233-297): compute the expanded axes, reindex positionally (the
prepended labels are fresh by the collision loop, or `None` paddings
never equal to the string row labels, so reindexing prepends blank
rows/columns), then write the column label tuples across the top rows
and the row label tuples down the left columns via `iloc` — columns
first, so the corner cells end up holding index labels, as in the
source. -/
def expandGrid (t : Table) (df : List (List CellVal)) : List (List CellVal) :=
  let index : NewAxis :=
    if t.include_columns then expandedIndex t.df.index t.df.columns
    else toNewAxis t.df.index
  let columns : NewAxis :=
    if t.include_index then expandedColumns t.df.index t.df.columns
    else toNewAxis t.df.columns
  -- df.reindex(index=index, columns=columns), positionally (see above)
  let numNewRows := index.length - t.df.index.length
  let numNewCols := columns.length - t.df.columns.length
  let grid := df.map (fun r => List.replicate numNewCols CellVal.na ++ r)
  let grid := List.replicate numNewRows (List.replicate columns.length CellVal.na) ++ grid
  -- df.iloc[i, :] = column labels (level i), or df.iloc[0, :] = df.columns
  let grid :=
    if t.include_columns then writeColumnLabels columns t.df.columns.nlevels grid else grid
  -- df.iloc[:, i] = index labels (level i), or df.iloc[:, 0] = df.index
  let grid :=
    if t.include_index then writeIndexLabels index t.df.index.nlevels grid else grid
  grid

/-- `Table.get_data` without the active-table bookkeeping: resolve
expression cells, unwrap `Value` wrappers, then expand headers and
index via `expandGrid` when either is included. -/
def Table.get_data_body (t : Table) (wb? : Option Workbook) (row col : Nat)
    (fv : List ((Nat × Nat) × Scalar)) :
    Except Err (List (List CellVal) × List ((Nat × Nat) × Scalar)) := do
  let df := t.df.cells
  let (df, fv) ←
    if gridHasExpr df then
      resolveCells wb? t.header_height t.row_labels_width row col 0 df fv
    else pure (df, fv)
  -- guarded by an `applymap(...).any().any()` in the source; the map is the
  -- identity when no `Value` wrapper is present, so the guard is dropped
  let df := df.map (fun r => r.map unwrapValue)
  if t.include_index || t.include_columns then
    .ok (expandGrid t df, fv)
  else
    .ok (df, fv)

/-- `Table.get_data(workbook, row, col, formula_values)`: pushes itself
as the workbook's active table, runs the materialization body, and
restores the previous active table in a `finally` (on the error path
too).  The workbook state is threaded explicitly; the body never mutates
it (expression resolution only reads it), matching the source. -/
def Table.get_data (t : Table) (wb? : Option Workbook) (row col : Nat)
    (fv : List ((Nat × Nat) × Scalar)) :
    (Except Err (List (List CellVal) × List ((Nat × Nat) × Scalar))) × Option Workbook :=
  match wb? with
  | some wb =>
    let wbActive := { wb with active_table := some t }
    (t.get_data_body (some wbActive) row col fv,
     some { wbActive with active_table := wb.active_table })
  | none => (t.get_data_body none row col fv, none)

/-! ## Worksheet grid composition (`Worksheet.iterrows`) -/

/-- `table[r][c] = v` on the dense output grid: Python list assignment,
raising `IndexError` when out of range. -/
def writeCell (g : List (List CellVal)) (r c : Nat) (v : CellVal) :
    Except Err (List (List CellVal)) :=
  match g.get? r with
  | none => .error .indexError
  | some rowList =>
    if c < rowList.length then .ok (g.set r (rowList.set c v))
    else .error .indexError

/-- Blit one resolved row into the grid starting at column `c`. -/
def blitRowCells : List (List CellVal) → Nat → Nat → List CellVal →
    Except Err (List (List CellVal))
  | g, _, _, [] => .ok g
  | g, r, c, v :: rest => do
    let g ← writeCell g r c v
    blitRowCells g r (c + 1) rest

/-- Blit a resolved table grid into the output grid at `(r, c)`
(`table[r][c] = data[i][j]` over the footprint). -/
def blitRows : List (List CellVal) → Nat → Nat → List (List CellVal) →
    Except Err (List (List CellVal))
  | g, _, _, [] => .ok g
  | g, r, c, rowData :: rest => do
    let g ← blitRowCells g r c rowData
    blitRows g (r + 1) c rest

/-- Blit every resolved table. -/
def blitTables : List (List CellVal) → List (Option String × (Nat × Nat) × List (List CellVal)) →
    Except Err (List (List CellVal))
  | g, [] => .ok g
  | g, (_, (r, c), data) :: rest => do
    let g ← blitRows g r c data
    blitTables g rest

/-- Materialize every registered table in registration order, threading
the workbook state and the shared `formula_values` dict through the
`get_data` calls.  The source temporarily registers the current table
under the `None` key around each call (`self.__tables[None] = ...` /
`del self.__tables[None]`); that registration is observable only through
the workbook's alias of this worksheet and only for lookups under the
`None` key, which no resolution path performs (unnamed references go
through the workbook's active table), so it has no counterpart in the
immutable embedding. -/
def resolveTables (wb? : Option Workbook) :
    List (Option String × Table × Nat × Nat) → List ((Nat × Nat) × Scalar) →
    (Except Err (List (Option String × (Nat × Nat) × List (List CellVal)) ×
       List ((Nat × Nat) × Scalar))) × Option Workbook
  | [], fv => (.ok ([], fv), wb?)
  | (name, t, r, c) :: rest, fv =>
    match t.get_data wb? r c fv with
    | (.error e, wb1) => (.error e, wb1)
    | (.ok (data, fv1), wb1) =>
      match resolveTables wb1 rest fv1 with
      | (.error e, wb2) => (.error e, wb2)
      | (.ok (entriesOut, fvOut), wb2) =>
        (.ok ((name, (r, c), data) :: entriesOut, fvOut), wb2)

/-- Overlay the free-standing values (`for (r, c), value in
self.__values.items()`): unwrap `Value` wrappers, resolve expressions
(recording a carried value in `formula_values`), and write at the
explicit coordinates — a Python list assignment that raises `IndexError`
when the coordinate is outside the allocated grid. -/
def overlayValues (wb? : Option Workbook) :
    List (List CellVal) → List ((Nat × Nat) × Scalar) → List ((Nat × Nat) × CellVal) →
    Except Err (List (List CellVal) × List ((Nat × Nat) × Scalar))
  | g, fv, [] => .ok (g, fv)
  | g, fv, ((r, c), v) :: rest => do
    let v := unwrapValue v
    let (v, fv) ←
      show Except Err (CellVal × List ((Nat × Nat) × Scalar)) from
      match v with
      | .expr e => do
        let fv := if e.has_value then fv ++ [((r, c), e.value)] else fv
        let s ← e.get_formula wb? (r : Int) (c : Int)
        pure (CellVal.s (.str s), fv)
      | other => pure (other, fv)
    let g ← writeCell g r c v
    overlayValues wb? g fv rest

/-- `Worksheet.iterrows(workbook)`: materialize every table, compute the
maximal extent over tables and free-standing values, allocate the dense
grid, blit the tables and overlay the values.  The rows are produced all
at once (the source builds the full `table` list before yielding).
Returns the rows together with the accumulated `__formula_values`.
NOTE (faithful to worksheet.py lines 148-150): the extent loop over
free-standing values updates `max_width` from `row + 1` and `max_height`
from `col + 1` — row and column are swapped there. -/
def Worksheet.iterrows (ws : Worksheet) (wb? : Option Workbook) :
    (Except Err (List (List CellVal) × List ((Nat × Nat) × Scalar))) × Option Workbook :=
  match resolveTables wb? ws.tables [] with
  | (.error e, wb1) => (.error e, wb1)
  | (.ok (resolved, fv), wb1) =>
    -- max_height/max_width from the table footprints
    -- (`lower_right[0] + 1 = row + height`, with `data.shape` read off the
    -- row list; numpy's (0, m) shape of an empty frame degenerates to
    -- (0, 0) here, which no claim depends on)
    let maxHW := resolved.foldl
      (fun (mhw : Nat × Nat) entry =>
        let h := entry.2.2.length
        let w := ((entry.2.2.head?).map List.length).getD 0
        (max mhw.1 (entry.2.1.1 + h), max mhw.2 (entry.2.1.2 + w)))
      (0, 0)
    -- free-standing values: the source swaps row and column here
    let maxHW := ws.values.foldl
      (fun (mhw : Nat × Nat) e => (max mhw.1 (e.1.2 + 1), max mhw.2 (e.1.1 + 1)))
      maxHW
    let grid := List.replicate maxHW.1 (List.replicate maxHW.2 CellVal.na)
    match blitTables grid resolved with
    | .error e => (.error e, wb1)
    | .ok grid =>
      match overlayValues wb1 grid fv ws.values with
      | .error e => (.error e, wb1)
      | .ok (grid, fv) => (.ok (grid, fv), wb1)

/-! ## Workbook iteration (`Workbook.itersheets`) -/

/-- One step of `Workbook.itersheets`: set the active worksheet, hand
control to the consumer of the generator (`yield ws` — the consumer may
read and mutate the workbook state and may raise), then restore the
previous active worksheet in the `finally`, on the error path too. -/
def Workbook.itersheetsStep {α : Type} (wb : Workbook) (ws : Worksheet)
    (f : Worksheet → Workbook → (Except Err α) × Workbook) : (Except Err α) × Workbook :=
  let prev := wb.active_worksheet
  let (r, wb2) := f ws { wb with active_worksheet := some ws }
  (r, { wb2 with active_worksheet := prev })

/-- The iteration of `Workbook.itersheets` over a list of worksheets:
stop at the first consumer error (the exception propagates out of the
`for` loop after the `finally` ran). -/
def itersheetsAux {α : Type} (f : Worksheet → Workbook → (Except Err α) × Workbook) :
    Workbook → List Worksheet → (Except Err Unit) × Workbook
  | wb, [] => (.ok (), wb)
  | wb, ws :: rest =>
    match Workbook.itersheetsStep wb ws f with
    | (.ok _, wb2) => itersheetsAux f wb2 rest
    | (.error e, wb2) => (.error e, wb2)

/-- `Workbook.itersheets()` consumed by `f`: the worksheets are visited
in registration order (the list as of entry, matching a single export
pass where the consumer does not add sheets). -/
def Workbook.itersheets {α : Type} (wb : Workbook)
    (f : Worksheet → Workbook → (Except Err α) × Workbook) : (Except Err Unit) × Workbook :=
  itersheetsAux f wb wb.worksheets

/-! ## Well-formedness (pandas structural invariants) -/

/-- A `MultiIndex` has at least one level and every label tuple has one
component per level; a flat index is unconstrained. -/
def AxisIdx.WF : AxisIdx → Prop
  | .flat _ _ => True
  | .multi ns ls => 1 ≤ ns.length ∧ ∀ tup ∈ ls, tup.length = ns.length

instance (a : AxisIdx) : Decidable a.WF := by
  cases a with
  | flat nm ls => exact .isTrue trivial
  | multi ns ls => exact inferInstanceAs (Decidable (_ ∧ _))

/-- A frame is rectangular: one cell row per index label, one cell per
column label in each row, and both axes well-formed. -/
def Frame.WF (f : Frame) : Prop :=
  f.cells.length = f.index.length
  ∧ (∀ r ∈ f.cells, r.length = f.columns.length)
  ∧ f.index.WF ∧ f.columns.WF

instance (f : Frame) : Decidable f.WF :=
  inferInstanceAs (Decidable (_ ∧ _ ∧ _ ∧ _))

/-! ## Theorems -/

/-- Helper: a successful `BinOp` construction yields a node whose
variant data is exactly the `binOp` of the operands and operator. -/
theorem binop_make_ok_kind {l r : Expr} {op : String} {e : Expr}
    (h : BinOp.make l r op = .ok e) : e.kind = .binOp l r op := by
  unfold BinOp.make at h
  split at h
  · split at h
    · cases h
      rfl
    · cases h
  · cases h
    rfl

/-- C10: an `Expression` on which no value has been set has
`has_value = False` and `value = 0`; after setting a scalar value,
`has_value = True` and `value` returns it; a stored expression delegates
both `value` and `has_value` recursively. -/
theorem c10_value_protocol :
    (∀ k : ExprKind, (Expr.mk k none).has_value = false ∧ (Expr.mk k none).value = .i 0)
    ∧ (∀ (e : Expr) (v : Scalar),
        (e.setValue (.scalar v)).has_value = true ∧ (e.setValue (.scalar v)).value = v)
    ∧ (∀ (e inner : Expr),
        (e.setValue (.expr inner)).value = inner.value
        ∧ (e.setValue (.expr inner)).has_value = inner.has_value) := by
  exact ⟨fun k => ⟨rfl, rfl⟩,
    fun e v => match e with | .mk k s => ⟨rfl, rfl⟩,
    fun e inner => match e with | .mk k s => ⟨rfl, rfl⟩⟩

/-- C9: each comparison operator method (`__eq__`, `__ne__`, `__lt__`,
`__le__`, `__gt__`, `__ge__`) constructs a new `BinOp` node over the
receiver and the wrapped other operand, with the corresponding
spreadsheet operator (`==` becomes `=`); in particular `a == b` is an
expression node, never a boolean. -/
theorem c9_comparison_ops :
    ∀ (a : Expr) (other : Scalar ⊕ Expr) (e : Expr),
      (a.eqOp other = .ok e → e.kind = .binOp a (make_expr other) "=")
      ∧ (a.neOp other = .ok e → e.kind = .binOp a (make_expr other) "!=")
      ∧ (a.ltOp other = .ok e → e.kind = .binOp a (make_expr other) "<")
      ∧ (a.leOp other = .ok e → e.kind = .binOp a (make_expr other) "<=")
      ∧ (a.gtOp other = .ok e → e.kind = .binOp a (make_expr other) ">")
      ∧ (a.geOp other = .ok e → e.kind = .binOp a (make_expr other) ">=") := by
  intro a other e
  exact ⟨fun h => binop_make_ok_kind h, fun h => binop_make_ok_kind h,
         fun h => binop_make_ok_kind h, fun h => binop_make_ok_kind h,
         fun h => binop_make_ok_kind h, fun h => binop_make_ok_kind h⟩

/-- Witness for C9 at a concrete input: `1 == 2` (as expressions, the
operands carrying no set value) constructs the `BinOp` node with
operator `=`. -/
theorem c9_comparison_ops_witness :
    (Expr.mk (.constE (.i 1)) none).eqOp (.inl (.i 2))
      = .ok (.mk (.binOp (.mk (.constE (.i 1)) none)
                         (make_expr (.inl (.i 2))) "=") none)
    ∧ (Expr.mk (.binOp (.mk (.constE (.i 1)) none)
                       (make_expr (.inl (.i 2))) "=") none).kind
      = .binOp (.mk (.constE (.i 1)) none) (make_expr (.inl (.i 2))) "=" :=
  ⟨rfl, (c9_comparison_ops (.mk (.constE (.i 1)) none) (.inl (.i 2))
      (.mk (.binOp (.mk (.constE (.i 1)) none) (make_expr (.inl (.i 2))) "=") none)).1 rfl⟩

/-- C8: constructing a `BinOp` whose operands both carry a statically
known value stores the folded value (the operator table applied to the
two operand values), and the node then reports `has_value` with exactly
that value; when either operand lacks a value, the node carries none. -/
theorem c8_binop_constant_folding :
    ∀ (lhs rhs : Expr) (op : String),
      (∀ v : Scalar, lhs.has_value = true → rhs.has_value = true →
        applyOp op lhs.value rhs.value = .ok v →
        ∃ e, BinOp.make lhs rhs op = .ok e ∧ e.kind = .binOp lhs rhs op
          ∧ e.has_value = true ∧ e.value = v)
      ∧ (¬(lhs.has_value = true ∧ rhs.has_value = true) →
        ∃ e, BinOp.make lhs rhs op = .ok e ∧ e.kind = .binOp lhs rhs op
          ∧ e.has_value = false) := by
  intro lhs rhs op
  constructor
  · intro v hl hr hap
    refine ⟨.mk (.binOp lhs rhs op) (some (.scalar v)), ?_, rfl, rfl, rfl⟩
    unfold BinOp.make
    rw [hl, hr]
    simp [hap]
  · intro hno
    refine ⟨.mk (.binOp lhs rhs op) none, ?_, rfl, rfl⟩
    unfold BinOp.make
    have : (lhs.has_value && rhs.has_value) = false := by
      cases hl : lhs.has_value <;> cases hr : rhs.has_value <;> simp_all
    rw [this]
    simp

/-- Witness for C8 at concrete inputs: `2 + 3` folds to `5`, and a
binary operation over a valueless operand carries no value. -/
theorem c8_binop_constant_folding_witness :
    ((make_expr (.inl (.i 2))).has_value = true
      ∧ applyOp "+" (make_expr (.inl (.i 2))).value (make_expr (.inl (.i 3))).value = .ok (.i 5)
      ∧ ∃ e, BinOp.make (make_expr (.inl (.i 2))) (make_expr (.inl (.i 3))) "+" = .ok e
          ∧ e.kind = .binOp (make_expr (.inl (.i 2))) (make_expr (.inl (.i 3))) "+"
          ∧ e.has_value = true ∧ e.value = .i 5)
    ∧ (¬((Expr.mk (.constE (.i 1)) none).has_value = true
        ∧ (make_expr (.inl (.i 3))).has_value = true)
      ∧ ∃ e, BinOp.make (.mk (.constE (.i 1)) none) (make_expr (.inl (.i 3))) "+" = .ok e
          ∧ e.kind = .binOp (.mk (.constE (.i 1)) none) (make_expr (.inl (.i 3))) "+"
          ∧ e.has_value = false) := by
  refine ⟨⟨rfl, rfl, ?_⟩, ?_, ?_⟩
  · exact (c8_binop_constant_folding (make_expr (.inl (.i 2)))
      (make_expr (.inl (.i 3))) "+").1 (.i 5) rfl rfl rfl
  · intro h
    exact absurd h.1 (by decide)
  · exact (c8_binop_constant_folding (.mk (.constE (.i 1)) none)
      (make_expr (.inl (.i 3))) "+").2 (fun h => absurd h.1 (by decide))

/-- C7: `add_table` with the row omitted places the table at the
current `next_row`; after any `add_table` the cursor equals
`max(previous next_row, row + height + row_spaces)`; and a second table
added without an explicit row starts exactly `row_spaces` below the
first one's footprint, so the two row ranges are disjoint. -/
theorem c7_add_table_cursor :
    ∀ (ws : Worksheet) (t : Table) (row? : Option Nat) (col spaces : Nat)
      (ws' : Worksheet) (r c : Nat),
      ws.add_table t row? col spaces = .ok (ws', r, c) →
      (row? = none → r = ws.next_row)
      ∧ ws'.next_row = max ws.next_row (r + t.height + spaces)
      ∧ ∀ (t2 : Table) (col2 spaces2 : Nat) (ws'' : Worksheet) (r2 c2 : Nat),
          row? = none →
          ws'.add_table t2 none col2 spaces2 = .ok (ws'', r2, c2) →
          r2 = r + t.height + spaces
          ∧ r + t.height ≤ r2
          ∧ ∀ i, r ≤ i → i < r + t.height → ¬(r2 ≤ i ∧ i < r2 + t2.height) := by
  intro ws t row? col spaces ws' r c h
  unfold Worksheet.add_table at h
  split at h
  · cases h
  · cases h
    refine ⟨fun hnone => by subst hnone; rfl, Nat.max_comm _ _, ?_⟩
    intro t2 col2 spaces2 ws'' r2 c2 hnone h2
    subst hnone
    unfold Worksheet.add_table at h2
    split at h2
    · cases h2
    · cases h2
      have hmax : max (ws.next_row + t.height + spaces) ws.next_row
          = ws.next_row + t.height + spaces := by omega
      simp only [Option.getD]
      refine ⟨hmax, by omega, ?_⟩
      intro i h1 h2i hcontra
      omega

/-- Concrete one-row table for the C7 witness. -/
def tW7 : Table :=
  { name := "t1",
    df := { index := .flat none ["r"], columns := .flat none ["a"], cells := [[.na]] } }

/-- The worksheet state after adding `tW7` to a fresh worksheet. -/
def wsW7 : Worksheet :=
  { name := "Sheet1", tables := [(some "t1", tW7, 0, 0)], values := [], next_row := 3 }

/-- Witness for C7 at a concrete input: a two-row table (one data row
plus header) added to a fresh worksheet lands at row 0 and advances the
cursor to `max(0, 0 + 2 + 1) = 3`. -/
theorem c7_add_table_cursor_witness :
    ({ } : Worksheet).add_table tW7 none 0 1 = .ok (wsW7, 0, 0)
    ∧ ((none : Option Nat) = none → 0 = ({ } : Worksheet).next_row)
    ∧ wsW7.next_row = max ({ } : Worksheet).next_row (0 + tW7.height + 1) := by
  have h := c7_add_table_cursor { } tW7 none 0 1 wsW7 0 0 rfl
  exact ⟨rfl, h.1, h.2.1⟩

/-- Helper: the letter loop emits nothing once the column number
reaches zero, whatever fuel remains. -/
theorem lettersAux_zero (k : Nat) : lettersAux k 0 = [] := by
  cases k <;> rfl

/-- Helper: the code of the emitted character is its argument (valid
for the Latin capitals `A`..`Z`). -/
theorem toNat_ofNat_letter (r : Nat) (h : r < 26) :
    (Char.ofNat (65 + r)).toNat = 65 + r := by
  interval_cases r <;> decide

/-- Helper: decoding the letter string of the 1-based column number `n`
recovers `n` (fuel `n` suffices since the loop value strictly
decreases). -/
theorem decode_lettersAux :
    ∀ fuel n, 1 ≤ n → n ≤ fuel →
      (lettersAux fuel n).foldl (fun a c => a * 26 + (c.toNat - 64)) 0 = n := by
  intro fuel
  induction fuel with
  | zero => intro n h1 h2; omega
  | succ k ih =>
    intro n h1 h2
    obtain ⟨m, rfl⟩ : ∃ m, n = m + 1 := ⟨n - 1, by omega⟩
    show (lettersAux (k + 1) (m + 1)).foldl (fun a c => a * 26 + (c.toNat - 64)) 0 = m + 1
    rw [lettersAux, List.foldl_append]
    simp only [List.foldl_cons, List.foldl_nil]
    have hc := toNat_ofNat_letter (m % 26) (Nat.mod_lt _ (by norm_num))
    by_cases hm : m / 26 = 0
    · rw [hm, lettersAux_zero]
      simp only [List.foldl_nil, hc]
      omega
    · rw [ih (m / 26) (Nat.pos_of_ne_zero hm)
        (le_trans (Nat.div_le_self m 26) (by omega)), hc]
      omega

/-- C4: the column letters emitted by `_to_addr` decode back to the
original zero-based column under base-26 with the 1-based correction;
`to_addr` emits exactly those letters; and the boundary columns 0, 25,
26, 701, 702 give `A`, `Z`, `AA`, `ZZ`, `AAA`. -/
theorem c4_to_addr_roundtrip :
    (∀ col : Nat, decodeCol (colLetters col) = col)
    ∧ (∀ (row : Int) (col : Nat),
        to_addr none row (col : Int) true
          = "$" ++ String.mk (colLetters col) ++ "$" ++ toString (row + 1))
    ∧ String.mk (colLetters 0) = "A"
    ∧ String.mk (colLetters 25) = "Z"
    ∧ String.mk (colLetters 26) = "AA"
    ∧ String.mk (colLetters 701) = "ZZ"
    ∧ String.mk (colLetters 702) = "AAA" := by
  refine ⟨?_, ?_, by decide, by decide, by decide, by decide, by decide⟩
  · intro col
    unfold decodeCol colLetters lettersOneBased
    rw [decode_lettersAux (col + 1) (col + 1) (by omega) (le_refl _)]
    omega
  · intro row col
    unfold to_addr
    have h : ((col : Int) + 1).toNat = col + 1 := by omega
    rw [h]
    rfl

/-- Helper: `findIdx?` under label equality misses exactly when the
label is absent. -/
theorem findIdx?_beq_none_iff (l : List String) (x : String) :
    (l.findIdx? (fun y => y == x) = none) ↔ x ∉ l := by
  rw [List.findIdx?_eq_none_iff]
  constructor
  · intro h hx
    have := h x hx
    simp at this
  · intro hx y hy
    by_cases hxy : y = x
    · subst hxy; exact absurd hy hx
    · simp [hxy]

/-- Helper: a successful row resolution resolved every expression cell
of the row at its offset coordinates. -/
theorem resolveRowCells_ok_resolves :
    ∀ (cells : List CellVal) (wb? : Option Workbook) (hh ilw row col r c0 : Nat)
      (fv : List ((Nat × Nat) × Scalar)) out,
      resolveRowCells wb? hh ilw row col r c0 cells fv = .ok out →
      ∀ j e, cells.get? j = some (.expr e) →
        ∃ s, e.get_formula wb? ((r + hh : Nat) : Int) ((c0 + j + ilw : Nat) : Int) = .ok s := by
  intro cells
  induction cells with
  | nil =>
    intro _ _ _ _ _ _ _ _ _ _ j e hj
    cases hj
  | cons cell rest ih =>
    intro wb? hh ilw row col r c0 fv out hok j e hj
    cases cell with
    | expr e' =>
      unfold resolveRowCells at hok
      dsimp only at hok
      cases hf : e'.get_formula wb? ((r + hh : Nat) : Int) ((c0 + ilw : Nat) : Int) with
      | error er =>
        rw [hf] at hok
        simp only [bind, Except.bind] at hok
        cases hok
      | ok s =>
        rw [hf] at hok
        simp only [bind, Except.bind] at hok
        cases j with
        | zero =>
          cases hj
          exact ⟨s, hf⟩
        | succ j' =>
          cases hrec : resolveRowCells wb? hh ilw row col r (c0 + 1) rest
              (if e'.has_value = true then
                fv ++ [((r + hh + row, c0 + ilw + col), e'.value)] else fv) with
          | error er => rw [hrec] at hok; cases hok
          | ok p =>
            have hco : c0 + 1 + j' + ilw = c0 + (j' + 1) + ilw := by omega
            rw [← hco]
            exact ih wb? hh ilw row col r (c0 + 1) _ p hrec j' e hj
    | na =>
      unfold resolveRowCells at hok
      dsimp only at hok
      simp only [bind, Except.bind] at hok
      cases hrec : resolveRowCells wb? hh ilw row col r (c0 + 1) rest fv with
      | error er => rw [hrec] at hok; cases hok
      | ok p =>
        cases j with
        | zero => cases hj
        | succ j' =>
          have hco : c0 + 1 + j' + ilw = c0 + (j' + 1) + ilw := by omega
          rw [← hco]
          exact ih wb? hh ilw row col r (c0 + 1) fv p hrec j' e hj
    | s v =>
      unfold resolveRowCells at hok
      dsimp only at hok
      simp only [bind, Except.bind] at hok
      cases hrec : resolveRowCells wb? hh ilw row col r (c0 + 1) rest fv with
      | error er => rw [hrec] at hok; cases hok
      | ok p =>
        cases j with
        | zero => cases hj
        | succ j' =>
          have hco : c0 + 1 + j' + ilw = c0 + (j' + 1) + ilw := by omega
          rw [← hco]
          exact ih wb? hh ilw row col r (c0 + 1) fv p hrec j' e hj
    | value inner =>
      unfold resolveRowCells at hok
      dsimp only at hok
      simp only [bind, Except.bind] at hok
      cases hrec : resolveRowCells wb? hh ilw row col r (c0 + 1) rest fv with
      | error er => rw [hrec] at hok; cases hok
      | ok p =>
        cases j with
        | zero => cases hj
        | succ j' =>
          have hco : c0 + 1 + j' + ilw = c0 + (j' + 1) + ilw := by omega
          rw [← hco]
          exact ih wb? hh ilw row col r (c0 + 1) fv p hrec j' e hj

/-- Helper: a successful grid resolution resolved every expression cell
of the frame at its offset coordinates. -/
theorem resolveCells_ok_resolves :
    ∀ (rows : List (List CellVal)) (wb? : Option Workbook) (hh ilw row col r0 : Nat)
      (fv : List ((Nat × Nat) × Scalar)) out,
      resolveCells wb? hh ilw row col r0 rows fv = .ok out →
      ∀ i j r e, rows.get? i = some r → r.get? j = some (.expr e) →
        ∃ s, e.get_formula wb? ((r0 + i + hh : Nat) : Int) ((j + ilw : Nat) : Int) = .ok s := by
  intro rows
  induction rows with
  | nil =>
    intro _ _ _ _ _ _ _ _ _ i j r e hi hj
    cases hi
  | cons rowCells rest ih =>
    intro wb? hh ilw row col r0 fv out hok i j r e hi hj
    unfold resolveCells at hok
    dsimp only at hok
    cases hrow : resolveRowCells wb? hh ilw row col r0 0 rowCells fv with
    | error er =>
      rw [hrow] at hok
      simp only [bind, Except.bind] at hok
      cases hok
    | ok p =>
      obtain ⟨p1, p2⟩ := p
      rw [hrow] at hok
      simp only [bind, Except.bind] at hok
      cases i with
      | zero =>
        cases hi
        have h := resolveRowCells_ok_resolves rowCells wb? hh ilw row col r0 0 fv
          (p1, p2) hrow j e hj
        have hco : (0 : Nat) + j + ilw = j + ilw := by omega
        rw [hco] at h
        have hro : r0 + 0 + hh = r0 + hh := by omega
        rw [hro]
        exact h
      | succ i' =>
        cases hrest : resolveCells wb? hh ilw row col (r0 + 1) rest p2 with
        | error er => rw [hrest] at hok; cases hok
        | ok q =>
          have hro : r0 + 1 + i' + hh = r0 + (i' + 1) + hh := by omega
          rw [← hro]
          exact ih wb? hh ilw row col (r0 + 1) p2 q hrest i' j r e hi hj

/-- Helper: when the mask check saw no expression cell, there is none. -/
theorem gridHasExpr_false_no_expr {g : List (List CellVal)} {i j : Nat}
    {r : List CellVal} {e : Expr}
    (hg : gridHasExpr g = false) (hi : g.get? i = some r)
    (hj : r.get? j = some (.expr e)) : False := by
  unfold gridHasExpr at hg
  rw [List.any_eq_false] at hg
  have hr := hg r (List.get?_mem hi)
  have hr' : ∀ x ∈ r, ¬cellIsExpr x = true := by
    rw [← List.any_eq_false]
    simpa using hr
  have hc := hr' (.expr e) (List.get?_mem hj)
  simp [cellIsExpr] at hc

/-- C6: under a resolvable table with flat axes, resolving a `Cell`,
`Column` or `Range` expression fails with the label-lookup `KeyError`
exactly when a referenced column or row label is absent from the
table's columns or index; resolving an `Index` expression fails exactly
when the table does not include its index; and a successful
materialization (`get_data` body) implies every expression cell's
resolution succeeded — label errors are propagated, never swallowed. -/
theorem c6_label_errors :
    (∀ (wb : Workbook) (t : Table) (ws : Worksheet) (tblOpt : Option String)
      (pos : Nat × Nat) (cn inm : Option String) (cls ils : List String),
      wb.get_table tblOpt = .ok (t, ws) →
      ws.get_table_pos (some t.name) = .ok pos →
      t.df.columns = .flat cn cls →
      t.df.index = .flat inm ils →
      (∀ (cl : String) (rl : Option String) (off : Int) (st : Option StoredVal) (row col : Int),
        (∃ msg, (Expr.mk (.cell cl rl off tblOpt) st).resolve (some wb) row col
            = .error (.labelNotFound msg))
          ↔ (cl ∉ cls ∨ ∃ r, rl = some r ∧ r ∉ ils))
      ∧ (∀ (cl : String) (ih : Bool) (st : Option StoredVal) (row col : Int),
        (∃ msg, (Expr.mk (.column cl ih tblOpt) st).resolve (some wb) row col
            = .error (.labelNotFound msg))
          ↔ cl ∉ cls)
      ∧ (∀ (ih : Bool) (st : Option StoredVal) (row col : Int),
        (∃ er, (Expr.mk (.index ih tblOpt) st).resolve (some wb) row col = .error er)
          ↔ t.include_index = false)
      ∧ (∀ (lc rc : String) (tr br : Option String) (ih : Bool)
          (st : Option StoredVal) (row col : Int),
        (∃ msg, (Expr.mk (.range lc rc tr br ih tblOpt) st).resolve (some wb) row col
            = .error (.labelNotFound msg))
          ↔ (lc ∉ cls ∨ rc ∉ cls ∨ (∃ r, tr = some r ∧ r ∉ ils)
              ∨ (∃ r, br = some r ∧ r ∉ ils))))
    ∧ (∀ (t : Table) (wb? : Option Workbook) (row col : Nat)
        (fv : List ((Nat × Nat) × Scalar)) out,
        t.get_data_body wb? row col fv = .ok out →
        ∀ i j r e, t.df.cells.get? i = some r → r.get? j = some (.expr e) →
          ∃ s, e.get_formula wb? ((i + t.header_height : Nat) : Int)
              ((j + t.row_labels_width : Nat) : Int) = .ok s) := by
  constructor
  · intro wb t ws tblOpt pos cn inm cls ils h1 h2 hcf hif
    refine ⟨?_, ?_, ?_, ?_⟩
    · -- Cell
      intro cl rl off st row col
      have he : (Expr.mk (.cell cl rl off tblOpt) st).resolve (some wb) row col
          = cellResolve cl rl off tblOpt (some wb) row col := rfl
      rw [he]
      unfold cellResolve requireWorkbook
      simp only [bind, Except.bind, h1, h2]
      unfold Table.get_column_offset
      rw [hcf]
      unfold AxisIdx.get_loc
      cases hfi : cls.findIdx? (fun y => y == cl) with
      | none =>
        simp only [hfi]
        constructor
        · intro _; exact Or.inl ((findIdx?_beq_none_iff cls cl).mp hfi)
        · intro _; exact ⟨_, rfl⟩
      | some i =>
        simp only [hfi]
        have hcl : cl ∈ cls := by
          by_contra hc
          rw [(findIdx?_beq_none_iff cls cl).mpr hc] at hfi
          cases hfi
        cases rl with
        | none =>
          constructor
          · rintro ⟨msg, h⟩; cases h
          · intro h
            rcases h with h | ⟨r, hr, _⟩
            · exact absurd hcl h
            · cases hr
        | some r =>
          unfold Table.get_row_offset
          rw [hif]
          unfold AxisIdx.get_loc
          cases hri : ils.findIdx? (fun y => y == r) with
          | none =>
            simp only [hri]
            constructor
            · intro _; exact Or.inr ⟨r, rfl, (findIdx?_beq_none_iff ils r).mp hri⟩
            · intro _; exact ⟨_, rfl⟩
          | some k =>
            simp only [hri]
            constructor
            · rintro ⟨msg, h⟩; cases h
            · intro h
              rcases h with h | ⟨r', hr', hnr⟩
              · exact absurd hcl h
              · cases hr'
                rw [(findIdx?_beq_none_iff ils r).mpr hnr] at hri
                cases hri
    · -- Column
      intro cl ih st row col
      have he : (Expr.mk (.column cl ih tblOpt) st).resolve (some wb) row col
          = columnResolve cl ih tblOpt (some wb) row col := rfl
      rw [he]
      unfold columnResolve requireWorkbook
      simp only [bind, Except.bind, h1, h2]
      unfold Table.get_column_offset
      rw [hcf]
      unfold AxisIdx.get_loc
      cases hfi : cls.findIdx? (fun y => y == cl) with
      | none =>
        simp only [hfi]
        constructor
        · intro _; exact (findIdx?_beq_none_iff cls cl).mp hfi
        · intro _; exact ⟨_, rfl⟩
      | some i =>
        simp only [hfi]
        constructor
        · rintro ⟨msg, h⟩; cases h
        · intro h
          rw [(findIdx?_beq_none_iff cls cl).mpr h] at hfi
          cases hfi
    · -- Index
      intro ih st row col
      have he : (Expr.mk (.index ih tblOpt) st).resolve (some wb) row col
          = indexResolve ih tblOpt (some wb) row col := rfl
      rw [he]
      unfold indexResolve requireWorkbook
      simp only [bind, Except.bind, h1, h2]
      unfold Table.get_index_offset
      cases hinc : t.include_index with
      | true =>
        simp only [reduceIte]
        constructor
        · rintro ⟨er, h⟩; cases h
        · intro h; cases h
      | false =>
        simp only [Bool.false_eq_true, if_false]
        exact ⟨fun _ => trivial, fun _ => ⟨_, rfl⟩⟩
    · -- Range
      intro lc rc tr br ih st row col
      have he : (Expr.mk (.range lc rc tr br ih tblOpt) st).resolve (some wb) row col
          = rangeResolve lc rc tr br ih tblOpt (some wb) row col := rfl
      rw [he]
      unfold rangeResolve requireWorkbook
      simp only [bind, Except.bind, h1, h2]
      unfold Table.get_column_offset
      rw [hcf]
      unfold AxisIdx.get_loc
      cases hfl : cls.findIdx? (fun y => y == lc) with
      | none =>
        simp only [hfl]
        constructor
        · intro _; exact Or.inl ((findIdx?_beq_none_iff cls lc).mp hfl)
        · intro _; exact ⟨_, rfl⟩
      | some il =>
        simp only [hfl]
        have hlc : lc ∈ cls := by
          by_contra hc
          rw [(findIdx?_beq_none_iff cls lc).mpr hc] at hfl
          cases hfl
        cases hfr : cls.findIdx? (fun y => y == rc) with
        | none =>
          simp only [hfr]
          constructor
          · intro _; exact Or.inr (Or.inl ((findIdx?_beq_none_iff cls rc).mp hfr))
          · intro _; exact ⟨_, rfl⟩
        | some ir =>
          simp only [hfr]
          have hrc : rc ∈ cls := by
            by_contra hc
            rw [(findIdx?_beq_none_iff cls rc).mpr hc] at hfr
            cases hfr
          unfold Table.get_row_offset
          rw [hif]
          unfold AxisIdx.get_loc
          cases tr with
          | none =>
            simp only []
            cases br with
            | none =>
              constructor
              · rintro ⟨msg, h⟩; cases h
              · intro h
                rcases h with h | h | ⟨r, hr, _⟩ | ⟨r, hr, _⟩
                · exact absurd hlc h
                · exact absurd hrc h
                · cases hr
                · cases hr
            | some rb =>
              cases hrb : ils.findIdx? (fun y => y == rb) with
              | none =>
                simp only [hrb]
                constructor
                · intro _
                  exact Or.inr (Or.inr (Or.inr ⟨rb, rfl, (findIdx?_beq_none_iff ils rb).mp hrb⟩))
                · intro _; exact ⟨_, rfl⟩
              | some kb =>
                simp only [hrb]
                constructor
                · rintro ⟨msg, h⟩; cases h
                · intro h
                  rcases h with h | h | ⟨r, hr, _⟩ | ⟨r, hr, hnr⟩
                  · exact absurd hlc h
                  · exact absurd hrc h
                  · cases hr
                  · cases hr
                    rw [(findIdx?_beq_none_iff ils rb).mpr hnr] at hrb
                    cases hrb
          | some rt =>
            cases hrt : ils.findIdx? (fun y => y == rt) with
            | none =>
              simp only [hrt]
              constructor
              · intro _
                exact Or.inr (Or.inr (Or.inl ⟨rt, rfl, (findIdx?_beq_none_iff ils rt).mp hrt⟩))
              · intro _; exact ⟨_, rfl⟩
            | some kt =>
              simp only [hrt]
              have hrt' : rt ∈ ils := by
                by_contra hc
                rw [(findIdx?_beq_none_iff ils rt).mpr hc] at hrt
                cases hrt
              cases br with
              | none =>
                constructor
                · rintro ⟨msg, h⟩; cases h
                · intro h
                  rcases h with h | h | ⟨r, hr, hnr⟩ | ⟨r, hr, _⟩
                  · exact absurd hlc h
                  · exact absurd hrc h
                  · cases hr; exact absurd hrt' hnr
                  · cases hr
              | some rb =>
                cases hrb : ils.findIdx? (fun y => y == rb) with
                | none =>
                  simp only [hrb]
                  constructor
                  · intro _
                    exact Or.inr (Or.inr (Or.inr ⟨rb, rfl, (findIdx?_beq_none_iff ils rb).mp hrb⟩))
                  · intro _; exact ⟨_, rfl⟩
                | some kb =>
                  simp only [hrb]
                  constructor
                  · rintro ⟨msg, h⟩; cases h
                  · intro h
                    rcases h with h | h | ⟨r, hr, hnr⟩ | ⟨r, hr, hnr⟩
                    · exact absurd hlc h
                    · exact absurd hrc h
                    · cases hr; exact absurd hrt' hnr
                    · cases hr
                      rw [(findIdx?_beq_none_iff ils rb).mpr hnr] at hrb
                      cases hrb
  · -- propagation: a successful materialization resolved every expression cell
    intro t wb? row col fv out hok i j r e hi hj
    unfold Table.get_data_body at hok
    dsimp only at hok
    cases hmask : gridHasExpr t.df.cells with
    | false => exact (gridHasExpr_false_no_expr hmask hi hj).elim
    | true =>
      rw [hmask] at hok
      simp only [if_true, bind, Except.bind] at hok
      cases hres : resolveCells wb? t.header_height t.row_labels_width row col 0 t.df.cells fv with
      | error er =>
        rw [hres] at hok
        cases hok
      | ok p =>
        have h := resolveCells_ok_resolves t.df.cells wb? t.header_height t.row_labels_width
          row col 0 fv p hres i j r e hi hj
        have hco : (0 : Nat) + i + t.header_height = i + t.header_height := by omega
        rw [hco] at h
        exact h

/-- Every row of a grid has width `w`. -/
def AllRows (g : List (List CellVal)) (w : Nat) : Prop :=
  ∀ r ∈ g, r.length = w

/-- Helper: expanding an axis with headers included prepends exactly one
row label per column level. -/
theorem expandedIndex_length (index columns : AxisIdx) (hc : columns.WF) :
    (expandedIndex index columns).length = columns.nlevels + index.length := by
  cases index with
  | flat nm ls =>
    cases columns with
    | flat cn cls =>
      simp [expandedIndex, NewAxis.length, AxisIdx.nlevels, AxisIdx.length]
      omega
    | multi cns cll =>
      obtain ⟨h1, _⟩ := hc
      simp [expandedIndex, NewAxis.length, AxisIdx.nlevels, AxisIdx.length]
      omega
  | multi ns ls =>
    cases columns with
    | flat cn cls =>
      simp [expandedIndex, NewAxis.length, AxisIdx.nlevels, AxisIdx.length]
      omega
    | multi cns cll =>
      obtain ⟨h1, _⟩ := hc
      simp [expandedIndex, NewAxis.length, AxisIdx.nlevels, AxisIdx.length]
      omega

/-- Helper: expanding an axis with the index included prepends exactly
one column label per index level. -/
theorem expandedColumns_length (index columns : AxisIdx) (hi : index.WF) :
    (expandedColumns index columns).length = index.nlevels + columns.length := by
  cases columns with
  | flat nm ls =>
    cases index with
    | flat inm ils =>
      simp [expandedColumns, NewAxis.length, AxisIdx.nlevels, AxisIdx.length]
      omega
    | multi ins ill =>
      obtain ⟨h1, _⟩ := hi
      simp [expandedColumns, NewAxis.length, AxisIdx.nlevels, AxisIdx.length]
      omega
  | multi ns ls =>
    cases index with
    | flat inm ils =>
      simp [expandedColumns, NewAxis.length, AxisIdx.nlevels, AxisIdx.length]
      omega
    | multi ins ill =>
      obtain ⟨h1, _⟩ := hi
      simp [expandedColumns, NewAxis.length, AxisIdx.nlevels, AxisIdx.length]
      omega

/-- Helper: an unexpanded axis keeps its length. -/
theorem toNewAxis_length (a : AxisIdx) : (toNewAxis a).length = a.length := by
  cases a <;> simp [toNewAxis, NewAxis.length, AxisIdx.length]

/-- Helper: the header height is the column depth when headers are
included and `0` otherwise. -/
theorem header_height_eq (t : Table) :
    t.header_height = if t.include_columns then t.df.columns.nlevels else 0 := by
  unfold Table.header_height AxisIdx.nlevels
  cases t.include_columns <;> cases t.df.columns <;> simp

/-- Helper: the index width is the index depth when the index is
included and `0` otherwise. -/
theorem row_labels_width_eq (t : Table) :
    t.row_labels_width = if t.include_index then t.df.index.nlevels else 0 := by
  unfold Table.row_labels_width AxisIdx.nlevels
  cases t.include_index <;> cases t.df.index <;> simp

/-- Helper: writing a row of the right width keeps the grid uniform. -/
theorem AllRows_set {g : List (List CellVal)} {w : Nat} {i : Nat} {v : List CellVal}
    (hg : AllRows g w) (hv : v.length = w) : AllRows (g.set i v) w := by
  intro r hr
  rcases List.mem_or_eq_of_mem_set hr with h | h
  · exact hg r h
  · rw [h]; exact hv

/-- Helper: writing one cell per row keeps the grid uniform. -/
theorem AllRows_zipWith_set {α : Type} :
    ∀ (g : List (List CellVal)) (ts : List α) (i : Nat) (f : α → CellVal) (w : Nat),
      AllRows g w →
      AllRows (List.zipWith (fun r x => r.set i (f x)) g ts) w := by
  intro g
  induction g with
  | nil => intro ts i f w _; intro r hr; cases hr
  | cons r0 rest ih =>
    intro ts i f w hg
    cases ts with
    | nil => intro r hr; cases hr
    | cons x xs =>
      intro r hr
      rcases List.mem_cons.mp hr with h | h
      · rw [h, List.length_set]
        exact hg r0 (List.mem_cons_self _ _)
      · exact ih xs i f w (fun r' hr' => hg r' (List.mem_cons_of_mem _ hr')) r h

/-- Helper: iterated row writes of the right width keep the grid's
length and uniform width. -/
theorem foldl_set_preserves :
    ∀ (rng : List Nat) (g : List (List CellVal)) (f : Nat → List CellVal) (w R : Nat),
      g.length = R → AllRows g w → (∀ i, (f i).length = w) →
      (rng.foldl (fun g i => g.set i (f i)) g).length = R
      ∧ AllRows (rng.foldl (fun g i => g.set i (f i)) g) w := by
  intro rng
  induction rng with
  | nil => intro g f w R hR hw _; exact ⟨hR, hw⟩
  | cons i rest ih =>
    intro g f w R hR hw hf
    simp only [List.foldl_cons]
    exact ih (g.set i (f i)) f w R (by rw [List.length_set]; exact hR)
      (AllRows_set hw (hf i)) hf

/-- Helper: iterated column writes keep the grid's length and uniform
width. -/
theorem foldl_zipWith_preserves {α : Type} :
    ∀ (rng : List Nat) (g : List (List CellVal)) (ts : List α)
      (f : Nat → α → CellVal) (w R : Nat),
      g.length = R → ts.length = R → AllRows g w →
      (rng.foldl (fun g i => List.zipWith (fun r x => r.set i (f i x)) g ts) g).length = R
      ∧ AllRows (rng.foldl (fun g i => List.zipWith (fun r x => r.set i (f i x)) g ts) g) w := by
  intro rng
  induction rng with
  | nil => intro g ts f w R hR _ hw; exact ⟨hR, hw⟩
  | cons i rest ih =>
    intro g ts f w R hR hts hw
    simp only [List.foldl_cons]
    have hzl : (List.zipWith (fun r x => r.set i (f i x)) g ts).length = R := by
      rw [List.length_zipWith, hR, hts, Nat.min_self]
    exact ih _ ts f w R hzl hts (AllRows_zipWith_set g ts i (f i) w hw)

/-- Helper: the column-label write preserves the grid's dimensions when
the expanded column axis has the grid's width. -/
theorem writeColumnLabels_dims (ax : NewAxis) (nlv : Nat) (g : List (List CellVal))
    (R W : Nat) (hax : ax.length = W) (hgR : g.length = R) (hgW : AllRows g W) :
    (writeColumnLabels ax nlv g).length = R ∧ AllRows (writeColumnLabels ax nlv g) W := by
  cases ax with
  | multi tuples =>
    unfold writeColumnLabels
    have htl : tuples.length = W := by simpa [NewAxis.length] using hax
    exact foldl_set_preserves (List.range nlv) g
      (fun i => tuples.map (fun tup => optToCell (tup.getD i none))) W R hgR hgW
      (fun i => by rw [List.length_map, htl])
  | flat labels =>
    unfold writeColumnLabels
    have hll : labels.length = W := by simpa [NewAxis.length] using hax
    exact ⟨by rw [List.length_set]; exact hgR,
      AllRows_set hgW (by rw [List.length_map, hll])⟩

/-- Helper: the row-label write preserves the grid's dimensions when
the expanded row axis has the grid's height. -/
theorem writeIndexLabels_dims (ax : NewAxis) (nlv : Nat) (g : List (List CellVal))
    (R W : Nat) (hax : ax.length = R) (hgR : g.length = R) (hgW : AllRows g W) :
    (writeIndexLabels ax nlv g).length = R ∧ AllRows (writeIndexLabels ax nlv g) W := by
  cases ax with
  | multi tuples =>
    unfold writeIndexLabels
    have htl : tuples.length = R := by simpa [NewAxis.length] using hax
    exact foldl_zipWith_preserves (List.range nlv) g tuples
      (fun i tup => optToCell (tup.getD i none)) W R hgR htl hgW
  | flat labels =>
    unfold writeIndexLabels
    have hll : labels.length = R := by simpa [NewAxis.length] using hax
    constructor
    · rw [List.length_zipWith, hgR, hll, Nat.min_self]
    · exact AllRows_zipWith_set g labels 0 optToCell W hgW

/-- Helper: the expansion block produces exactly the footprint
`(index-length + header-height) × (columns-length + index-width)`. -/
theorem expandGrid_dims (t : Table) (df : List (List CellVal))
    (hiw : t.df.index.WF) (hcw : t.df.columns.WF)
    (hdl : df.length = t.df.index.length)
    (hdr : AllRows df t.df.columns.length) :
    (expandGrid t df).length = t.df.index.length + t.header_height
    ∧ AllRows (expandGrid t df) (t.df.columns.length + t.row_labels_width) := by
  unfold expandGrid
  set idxAx : NewAxis :=
    if t.include_columns then expandedIndex t.df.index t.df.columns
    else toNewAxis t.df.index with hidxAx
  set colAx : NewAxis :=
    if t.include_index then expandedColumns t.df.index t.df.columns
    else toNewAxis t.df.columns with hcolAx
  have hIdxLen : idxAx.length = t.df.index.length + t.header_height := by
    rw [hidxAx, header_height_eq]
    cases hic : t.include_columns with
    | true =>
      simp only [if_true]
      rw [expandedIndex_length t.df.index t.df.columns hcw]
      omega
    | false =>
      simp only [Bool.false_eq_true, if_false, toNewAxis_length]
      omega
  have hColLen : colAx.length = t.df.columns.length + t.row_labels_width := by
    rw [hcolAx, row_labels_width_eq]
    cases hii : t.include_index with
    | true =>
      simp only [if_true]
      rw [expandedColumns_length t.df.index t.df.columns hiw]
      omega
    | false =>
      simp only [Bool.false_eq_true, if_false, toNewAxis_length]
      omega
  set W := t.df.columns.length + t.row_labels_width with hW
  set R := t.df.index.length + t.header_height with hR
  have hnc : colAx.length - t.df.columns.length = t.row_labels_width := by omega
  set g1 := df.map (fun r => List.replicate (colAx.length - t.df.columns.length) CellVal.na ++ r) with hg1
  have hg1len : g1.length = t.df.index.length := by
    rw [hg1, List.length_map, hdl]
  have hg1rows : AllRows g1 W := by
    intro r hr
    rcases List.mem_map.mp hr with ⟨r0, hr0, rfl⟩
    rw [List.length_append, List.length_replicate, hdr r0 hr0, hnc, hW]
    omega
  set g2 := List.replicate (idxAx.length - t.df.index.length) (List.replicate colAx.length CellVal.na) ++ g1 with hg2
  have hg2len : g2.length = R := by
    rw [hg2, List.length_append, List.length_replicate, hg1len]
    omega
  have hg2rows : AllRows g2 W := by
    intro r hr
    rcases List.mem_append.mp hr with h | h
    · rw [List.eq_of_mem_replicate h, List.length_replicate, hColLen]
    · exact hg1rows r h
  have h3 : (if t.include_columns then writeColumnLabels colAx t.df.columns.nlevels g2 else g2).length = R
      ∧ AllRows (if t.include_columns then writeColumnLabels colAx t.df.columns.nlevels g2 else g2) W := by
    cases t.include_columns with
    | false => exact ⟨hg2len, hg2rows⟩
    | true =>
      simp only [if_true]
      exact writeColumnLabels_dims colAx t.df.columns.nlevels g2 R W (by omega) hg2len hg2rows
  set g3 := if t.include_columns then writeColumnLabels colAx t.df.columns.nlevels g2 else g2 with hg3
  have h4 : (if t.include_index then writeIndexLabels idxAx t.df.index.nlevels g3 else g3).length = R
      ∧ AllRows (if t.include_index then writeIndexLabels idxAx t.df.index.nlevels g3 else g3) W := by
    cases t.include_index with
    | false => exact h3
    | true =>
      simp only [if_true]
      exact writeIndexLabels_dims idxAx t.df.index.nlevels g3 R W (by omega) h3.1 h3.2
  exact h4

/-- Helper: a successful row resolution keeps the row's length. -/
theorem resolveRowCells_ok_length :
    ∀ (cells : List CellVal) (wb? : Option Workbook) (hh ilw row col r c0 : Nat)
      (fv : List ((Nat × Nat) × Scalar)) out,
      resolveRowCells wb? hh ilw row col r c0 cells fv = .ok out →
      out.1.length = cells.length := by
  intro cells
  induction cells with
  | nil =>
    intro _ _ _ _ _ _ _ _ out hok
    cases hok
    rfl
  | cons cell rest ih =>
    intro wb? hh ilw row col r c0 fv out hok
    cases cell with
    | expr e' =>
      unfold resolveRowCells at hok
      dsimp only at hok
      cases hf : e'.get_formula wb? ((r + hh : Nat) : Int) ((c0 + ilw : Nat) : Int) with
      | error er =>
        rw [hf] at hok
        simp only [bind, Except.bind] at hok
        cases hok
      | ok s =>
        rw [hf] at hok
        simp only [bind, Except.bind] at hok
        cases hrec : resolveRowCells wb? hh ilw row col r (c0 + 1) rest
            (if e'.has_value = true then
              fv ++ [((r + hh + row, c0 + ilw + col), e'.value)] else fv) with
        | error er => rw [hrec] at hok; cases hok
        | ok p =>
          rw [hrec] at hok
          cases hok
          simp only [List.length_cons]
          rw [ih wb? hh ilw row col r (c0 + 1) _ p hrec]
    | na =>
      unfold resolveRowCells at hok
      dsimp only at hok
      simp only [bind, Except.bind] at hok
      cases hrec : resolveRowCells wb? hh ilw row col r (c0 + 1) rest fv with
      | error er => rw [hrec] at hok; cases hok
      | ok p =>
        rw [hrec] at hok
        cases hok
        simp only [List.length_cons]
        rw [ih wb? hh ilw row col r (c0 + 1) fv p hrec]
    | s v =>
      unfold resolveRowCells at hok
      dsimp only at hok
      simp only [bind, Except.bind] at hok
      cases hrec : resolveRowCells wb? hh ilw row col r (c0 + 1) rest fv with
      | error er => rw [hrec] at hok; cases hok
      | ok p =>
        rw [hrec] at hok
        cases hok
        simp only [List.length_cons]
        rw [ih wb? hh ilw row col r (c0 + 1) fv p hrec]
    | value inner =>
      unfold resolveRowCells at hok
      dsimp only at hok
      simp only [bind, Except.bind] at hok
      cases hrec : resolveRowCells wb? hh ilw row col r (c0 + 1) rest fv with
      | error er => rw [hrec] at hok; cases hok
      | ok p =>
        rw [hrec] at hok
        cases hok
        simp only [List.length_cons]
        rw [ih wb? hh ilw row col r (c0 + 1) fv p hrec]

/-- Helper: a successful grid resolution keeps the number of rows and a
uniform row width. -/
theorem resolveCells_ok_shape :
    ∀ (rows : List (List CellVal)) (wb? : Option Workbook) (hh ilw row col r0 : Nat)
      (fv : List ((Nat × Nat) × Scalar)) out,
      resolveCells wb? hh ilw row col r0 rows fv = .ok out →
      out.1.length = rows.length
      ∧ ∀ C, AllRows rows C → AllRows out.1 C := by
  intro rows
  induction rows with
  | nil =>
    intro _ _ _ _ _ _ _ out hok
    cases hok
    exact ⟨rfl, fun C _ => fun r hr => by cases hr⟩
  | cons rowCells rest ih =>
    intro wb? hh ilw row col r0 fv out hok
    unfold resolveCells at hok
    dsimp only at hok
    cases hrow : resolveRowCells wb? hh ilw row col r0 0 rowCells fv with
    | error er =>
      rw [hrow] at hok
      simp only [bind, Except.bind] at hok
      cases hok
    | ok p =>
      obtain ⟨p1, p2⟩ := p
      rw [hrow] at hok
      simp only [bind, Except.bind] at hok
      cases hrest : resolveCells wb? hh ilw row col (r0 + 1) rest p2 with
      | error er => rw [hrest] at hok; cases hok
      | ok q =>
        rw [hrest] at hok
        cases hok
        have hhead := resolveRowCells_ok_length rowCells wb? hh ilw row col r0 0 fv (p1, p2) hrow
        obtain ⟨hlen, hall⟩ := ih wb? hh ilw row col (r0 + 1) p2 q hrest
        constructor
        · simp only [List.length_cons]
          rw [hlen]
        · intro C hC
          intro r hr
          rcases List.mem_cons.mp hr with h | h
          · rw [h]
            simpa using hhead.trans (hC rowCells (List.mem_cons_self _ _))
          · exact hall C (fun r' hr' => hC r' (List.mem_cons_of_mem _ hr')) r h

/-- C5: a successful `get_data` materialization returns a grid of
exactly `table.height` rows, each of exactly `table.width` cells, with
`width = data-column-count + index-column-count`,
`height = data-row-count + header-row-count`, and the header height
(resp. index width) equal to the column (resp. index) depth when
included and `0` when excluded. -/
theorem c5_get_data_dims :
    ∀ (t : Table) (wb? : Option Workbook) (row col : Nat)
      (fv : List ((Nat × Nat) × Scalar)) (grid : List (List CellVal))
      (fv' : List ((Nat × Nat) × Scalar)),
      t.df.WF →
      (t.get_data wb? row col fv).1 = .ok (grid, fv') →
      grid.length = t.height
      ∧ AllRows grid t.width
      ∧ t.height = t.df.index.length + t.header_height
      ∧ t.width = t.df.columns.length + t.row_labels_width
      ∧ t.header_height = (if t.include_columns then t.df.columns.nlevels else 0)
      ∧ t.row_labels_width = (if t.include_index then t.df.index.nlevels else 0) := by
  intro t wb? row col fv grid fv' hwf hok
  obtain ⟨hlen, hrows, hiw, hcw⟩ := hwf
  have hbody' : ∃ wbx, t.get_data_body wbx row col fv = .ok (grid, fv') := by
    unfold Table.get_data at hok
    cases wb? with
    | some wb => exact ⟨_, hok⟩
    | none => exact ⟨_, hok⟩
  obtain ⟨wbx, hbody⟩ := hbody'
  unfold Table.get_data_body at hbody
  dsimp only at hbody
  suffices h : grid.length = t.df.index.length + t.header_height
      ∧ AllRows grid (t.df.columns.length + t.row_labels_width) by
    refine ⟨h.1, h.2, rfl, rfl, header_height_eq t, row_labels_width_eq t⟩
  have hmid : ∀ (df1 : List (List CellVal)) (fv1 : List ((Nat × Nat) × Scalar)),
      df1.length = t.df.cells.length →
      (∀ C, AllRows t.df.cells C → AllRows df1 C) →
      ((if t.include_index || t.include_columns then
          Except.ok (expandGrid t (df1.map (fun r => r.map unwrapValue)), fv1)
        else Except.ok (df1.map (fun r => r.map unwrapValue), fv1))
          : Except Err (List (List CellVal) × List ((Nat × Nat) × Scalar)))
        = Except.ok (grid, fv') →
      grid.length = t.df.index.length + t.header_height
      ∧ AllRows grid (t.df.columns.length + t.row_labels_width) := by
    intro df1 fv1 hdl hdall heq
    have hdl2 : (df1.map (fun r => r.map unwrapValue)).length = t.df.index.length := by
      rw [List.length_map, hdl, hlen]
    have hdr2 : AllRows (df1.map (fun r => r.map unwrapValue)) t.df.columns.length := by
      intro r hr
      rcases List.mem_map.mp hr with ⟨r0, hr0, rfl⟩
      rw [List.length_map]
      exact hdall t.df.columns.length hrows r0 hr0
    cases hflags : (t.include_index || t.include_columns) with
    | true =>
      rw [hflags] at heq
      simp only [if_true] at heq
      cases heq
      exact expandGrid_dims t _ hiw hcw hdl2 hdr2
    | false =>
      rw [hflags] at heq
      simp only [Bool.false_eq_true, if_false] at heq
      cases heq
      have hh0 : t.header_height = 0 := by
        rw [header_height_eq]
        cases hic : t.include_columns
        · simp
        · rw [hic] at hflags; simp at hflags
      have hw0 : t.row_labels_width = 0 := by
        rw [row_labels_width_eq]
        cases hii : t.include_index
        · simp
        · rw [hii] at hflags; simp at hflags
      rw [hh0, hw0]
      refine ⟨by rw [hdl2]; omega, ?_⟩
      intro r hr
      have := hdr2 r hr
      omega
  cases hmask : gridHasExpr t.df.cells with
  | true =>
    rw [hmask] at hbody
    simp only [if_true, bind, Except.bind] at hbody
    cases hres : resolveCells wbx t.header_height t.row_labels_width row col 0 t.df.cells fv with
    | error er => rw [hres] at hbody; cases hbody
    | ok p =>
      obtain ⟨p1, p2⟩ := p
      rw [hres] at hbody
      obtain ⟨hl, hall⟩ := resolveCells_ok_shape t.df.cells wbx t.header_height
        t.row_labels_width row col 0 fv (p1, p2) hres
      exact hmid p1 p2 hl hall hbody
  | false =>
    rw [hmask] at hbody
    simp only [Bool.false_eq_true, if_false, bind, Except.bind, pure, Except.pure] at hbody
    exact hmid t.df.cells fv rfl (fun C hC => hC) hbody

/-- Table fixture for the C5 witness: one data cell, headers included. -/
def tW5 : Table :=
  { name := "t5",
    df := { index := .flat none ["r"], columns := .flat none ["a"],
            cells := [[.s (.i 7)]] } }

/-- Witness for C5 at a concrete input: the 1×1 table with headers
materializes (without a workbook) to a 2×1 grid, matching
`height = 1 + 1` and `width = 1 + 0`. -/
theorem c5_get_data_dims_witness :
    tW5.df.WF
    ∧ (tW5.get_data none 0 0 []).1 = .ok ([[.s (.str "a")], [.s (.i 7)]], [])
    ∧ ([[CellVal.s (.str "a")], [CellVal.s (.i 7)]].length = tW5.height
        ∧ AllRows [[CellVal.s (.str "a")], [CellVal.s (.i 7)]] tW5.width
        ∧ tW5.height = tW5.df.index.length + tW5.header_height
        ∧ tW5.width = tW5.df.columns.length + tW5.row_labels_width
        ∧ tW5.header_height = (if tW5.include_columns then tW5.df.columns.nlevels else 0)
        ∧ tW5.row_labels_width = (if tW5.include_index then tW5.df.index.nlevels else 0)) := by
  refine ⟨by decide, rfl, ?_⟩
  exact c5_get_data_dims tW5 none 0 0 [] [[.s (.str "a")], [.s (.i 7)]] [] (by decide) rfl

/-- Frame fixture for the C6 witness. -/
def frW6 : Frame :=
  { index := .flat none ["r1", "r2"], columns := .flat none ["a", "b"],
    cells := [[.na, .na], [.na, .na]] }

/-- Table fixture for the C6 witness. -/
def tW6 : Table := { name := "tw", df := frW6 }

/-- Worksheet fixture for the C6 witness. -/
def wsW6 : Worksheet := { name := "S", tables := [(some "tw", tW6, 0, 0)] }

/-- Workbook fixture for the C6 witness. -/
def wbW6 : Workbook := { worksheets := [wsW6] }

/-- Witness for C6 at a concrete input: looking up the absent column
label `zz` in a resolvable two-column table makes `Cell.resolve` fail
with the label-lookup `KeyError`. -/
theorem c6_label_errors_witness :
    wbW6.get_table (some "tw") = .ok (tW6, wsW6)
    ∧ wsW6.get_table_pos (some tW6.name) = .ok (0, 0)
    ∧ tW6.df.columns = .flat none ["a", "b"]
    ∧ tW6.df.index = .flat none ["r1", "r2"]
    ∧ (∃ msg, (Expr.mk (.cell "zz" none 0 (some "tw")) none).resolve (some wbW6) 0 0
        = .error (.labelNotFound msg)) := by
  refine ⟨rfl, rfl, rfl, rfl, ?_⟩
  exact ((c6_label_errors.1 wbW6 tW6 wsW6 (some "tw") (0, 0) none none
    ["a", "b"] ["r1", "r2"] rfl rfl rfl rfl).1 "zz" none 0 none 0 0).mpr
    (Or.inl (by decide))

/-- Worksheet with no tables and one free-standing value at
`(row 0, col 2)`: the input on which the swapped extent computation of
`iterrows` (worksheet.py lines 148-150) allocates a 3-row × 1-column
grid and the write `table[0][2]` raises `IndexError`. -/
def wsC1 : Worksheet := { values := [((0, 2), .s (.i 5))] }

/-- The same with the value on the diagonal `(1, 1)`, where the swap is
harmless. -/
def wsC1d : Worksheet := { values := [((1, 1), .s (.i 5))] }

/-- C1 (code bug, worksheet.py lines 148-150): the extent loop over
free-standing values updates `max_width` from `row + 1` and
`max_height` from `col + 1` — swapped — so a value added at `(0, 2)`
makes `iterrows` allocate a 3×1 grid and crash with `IndexError`
instead of appearing at `(0, 2)` of a grid of width ≥ 3;
a diagonal value `(1, 1)` survives and lands at `(1, 1)`. -/
theorem c1_iterrows_swapped_extents :
    (wsC1.iterrows none).1 = .error .indexError
    ∧ (wsC1d.iterrows none).1 = .ok ([[.na, .na], [.na, .s (.i 5)]], []) :=
  ⟨rfl, rfl⟩

/-- Frame with a single empty cell for the C2 scenario. -/
def frC2 : Frame :=
  { index := .flat none ["r"], columns := .flat none ["a"], cells := [[.na]] }

/-- The table named `t`, registered on the first C2 worksheet. -/
def tC2 : Table := { name := "t", df := frC2 }

/-- First C2 worksheet: owns the table `t`. -/
def ws1C2 : Worksheet := { name := "S1", tables := [(some "t", tC2, 0, 0)] }

/-- Second C2 worksheet: owns no tables. -/
def ws2C2 : Worksheet := { name := "S2" }

/-- C2 workbook: both worksheets registered, the empty one active. -/
def wbC2 : Workbook :=
  { worksheets := [ws1C2, ws2C2], active_worksheet := some ws2C2 }

/-- Counterexample to C2: with the active worksheet set to a sheet that
lacks the name, the unqualified lookup fails with `KeyError` even
though another registered worksheet contains a table of that name — so
the lookup does **not** fail "iff no worksheet in the workbook contains
a table of that name", and the registration-order scan is not reached. -/
theorem c2_get_table_counterexample :
    wbC2.get_table (some "t") = .error (.keyError (some "t"))
    ∧ ws1C2 ∈ wbC2.worksheets
    ∧ ws1C2.get_table (some "t") = .ok tC2 :=
  ⟨rfl, List.mem_cons_self _ _, rfl⟩

/-- Helper: the fallback scan finds nothing iff no worksheet in the
list has the name registered. -/
theorem scanFirst_none_iff (n : String) :
    ∀ l : List Worksheet,
      scanFirst l n = none ↔ ∀ ws ∈ l, ws.findEntry (some n) = none := by
  intro l
  induction l with
  | nil => simp [scanFirst]
  | cons ws rest ih =>
    unfold scanFirst
    cases hf : ws.findEntry (some n) with
    | some e =>
      obtain ⟨t, r, c⟩ := e
      simp only [List.forall_mem_cons]
      constructor
      · intro h; cases h
      · intro h; rw [h.1] at hf; cases hf
    | none =>
      simp only [List.forall_mem_cons, ih, hf]
      tauto

/-- Helper: a hit of the fallback scan is the first worksheet in
registration order containing the name. -/
theorem scanFirst_some (n : String) :
    ∀ (l : List Worksheet) (t : Table) (ws : Worksheet),
      scanFirst l n = some (t, ws) →
      ∃ pre post pos, l = pre ++ ws :: post
        ∧ (∀ w ∈ pre, w.findEntry (some n) = none)
        ∧ ws.findEntry (some n) = some (t, pos) := by
  intro l
  induction l with
  | nil => intro t ws h; cases h
  | cons w rest ih =>
    intro t ws h
    unfold scanFirst at h
    cases hf : w.findEntry (some n) with
    | some e =>
      obtain ⟨t', r', c'⟩ := e
      rw [hf] at h
      cases h
      exact ⟨[], rest, (r', c'), rfl, by simp, hf⟩
    | none =>
      rw [hf] at h
      obtain ⟨pre, post, pos, hl, hpre, hws⟩ := ih t ws h
      refine ⟨w :: pre, post, pos, by rw [hl]; rfl, ?_, hws⟩
      intro w' hw'
      rcases List.mem_cons.mp hw' with h' | h'
      · rw [h']; exact hf
      · exact hpre w' h'

/-- C2 amended: for an unqualified nonempty name, when the active
worksheet is set the lookup consults **only** the active worksheet — it
returns that worksheet's table when present and fails with the
`KeyError` otherwise, with no fallback to the other sheets; only when
no active worksheet is set are the worksheets scanned in registration
order, the first worksheet containing the name winning, and in that
case the lookup fails iff no worksheet contains the name. -/
theorem c2_lookup_amended :
    ∀ (wb : Workbook) (n : String),
      n.data.any (fun c => c == '!') = false →
      (∀ aws, wb.active_worksheet = some aws →
        wb.get_table (some n)
          = match aws.findEntry (some n) with
            | some (t, _, _) => .ok (t, aws)
            | none => .error (.keyError (some n)))
      ∧ (wb.active_worksheet = none →
          ((wb.get_table (some n) = .error (.keyError (some n)))
            ↔ ∀ ws ∈ wb.worksheets, ws.findEntry (some n) = none)
          ∧ (∀ (t : Table) (ws : Worksheet),
              wb.get_table (some n) = .ok (t, ws) →
              ∃ pre post pos, wb.worksheets = pre ++ ws :: post
                ∧ (∀ w ∈ pre, w.findEntry (some n) = none)
                ∧ ws.findEntry (some n) = some (t, pos))) := by
  intro wb n hbang
  constructor
  · intro aws ha
    simp only [Workbook.get_table, hbang, Bool.false_eq_true, if_false, ha]
    unfold Worksheet.get_table
    cases hf : aws.findEntry (some n) with
    | some e => obtain ⟨t, r, c⟩ := e; rfl
    | none => rfl
  · intro ha
    have hunfold : wb.get_table (some n)
        = match scanFirst wb.worksheets n with
          | some (t, ws) => .ok (t, ws)
          | none => .error (.keyError (some n)) := by
      simp only [Workbook.get_table, hbang, Bool.false_eq_true, if_false, ha]
    constructor
    · rw [hunfold]
      cases hs : scanFirst wb.worksheets n with
      | some e =>
        obtain ⟨t, ws⟩ := e
        simp only []
        constructor
        · intro h; cases h
        · intro hall
          obtain ⟨pre, post, pos, hl, hpre, hws⟩ := scanFirst_some n wb.worksheets t ws hs
          have : ws ∈ wb.worksheets := by rw [hl]; exact List.mem_append_right _ (List.mem_cons_self _ _)
          rw [hall ws this] at hws
          cases hws
      | none =>
        simp only []
        constructor
        · intro _; exact (scanFirst_none_iff n wb.worksheets).mp hs
        · intro _; trivial
    · intro t ws h
      rw [hunfold] at h
      cases hs : scanFirst wb.worksheets n with
      | some e =>
        obtain ⟨t', ws'⟩ := e
        rw [hs] at h
        cases h
        exact scanFirst_some n wb.worksheets t ws hs
      | none => rw [hs] at h; cases h

/-- Witness for the amended C2 at a concrete input: the C2 workbook
(active worksheet set to the sheet without the table) resolves `t`
through the active worksheet only. -/
theorem c2_lookup_amended_witness :
    ("t".data.any (fun c => c == '!') = false)
    ∧ wbC2.get_table (some "t")
        = match ws2C2.findEntry (some "t") with
          | some (t, _, _) => .ok (t, ws2C2)
          | none => .error (.keyError (some "t")) := by
  refine ⟨by decide, ?_⟩
  exact (c2_lookup_amended wbC2 "t" (by decide)).1 ws2C2 rfl

/-- C3: `Table.get_data` restores the workbook's `active_table` (and
touches nothing else in the workbook) on every exit path, error
included: the returned workbook state equals the input state.
`Workbook.itersheets` restores `active_worksheet` after each step and
after the whole iteration, for every consumer behavior, including a
consumer that mutates the workbook or raises. -/
theorem c3_active_context_restored :
    (∀ (t : Table) (wb : Workbook) (row col : Nat) (fv : List ((Nat × Nat) × Scalar)),
        (t.get_data (some wb) row col fv).2 = some wb)
    ∧ (∀ (t : Table) (wb : Workbook) (row col : Nat) (fv : List ((Nat × Nat) × Scalar))
        (e : Err),
        (t.get_data (some wb) row col fv).1 = .error e →
        ((t.get_data (some wb) row col fv).2).map Workbook.active_table
          = some wb.active_table)
    ∧ (∀ {α : Type} (wb : Workbook) (ws : Worksheet)
        (f : Worksheet → Workbook → (Except Err α) × Workbook),
        ((wb.itersheetsStep ws f).2).active_worksheet = wb.active_worksheet)
    ∧ (∀ {α : Type} (wb : Workbook)
        (f : Worksheet → Workbook → (Except Err α) × Workbook),
        ((wb.itersheets f).2).active_worksheet = wb.active_worksheet) := by
  have hstep : ∀ {α : Type} (wb : Workbook) (ws : Worksheet)
      (f : Worksheet → Workbook → (Except Err α) × Workbook),
      ((wb.itersheetsStep ws f).2).active_worksheet = wb.active_worksheet := by
    intro α wb ws f
    unfold Workbook.itersheetsStep
    rfl
  have haux : ∀ {α : Type} (f : Worksheet → Workbook → (Except Err α) × Workbook)
      (l : List Worksheet) (wb : Workbook),
      ((itersheetsAux f wb l).2).active_worksheet = wb.active_worksheet := by
    intro α f l
    induction l with
    | nil => intro wb; rfl
    | cons ws rest ih =>
      intro wb
      unfold itersheetsAux
      cases hs : Workbook.itersheetsStep wb ws f with
      | mk res wb2 =>
        have h2 : wb2.active_worksheet = wb.active_worksheet := by
          have := hstep wb ws f
          rw [hs] at this
          exact this
        cases res with
        | ok _ => simpa [h2] using ih wb2
        | error e => simpa using h2
  refine ⟨fun t wb row col fv => rfl, fun t wb row col fv e _ => rfl, hstep, ?_⟩
  intro α wb f
  exact haux f wb.worksheets wb

end XlTable
